import Mathlib

/-!
Verification of the auto-sizing + undo/redo history core of the diagram editor:
the `textUtils` sizing functions (`measureText`, `calculateShapeSize`,
`normalizeShapeSizes`) and the `CanvasHistoryManager` snapshot engine
(`saveState`, `undo`, `redo`, `loadState`, `clear`).

Numbers are embedded as exact rationals (`ℚ`); the source's `Math.ceil` is
`Int.ceil`.  JavaScript `Math.max(...)` over a possibly-empty argument list is
embedded with `Option ℚ`, where `none` encodes the `-Infinity` that
`Math.max()` returns on no arguments.
-/

/-! ## ShapeSizer: text measurement and shape sizing (textUtils) -/

/-- Metrics returned by `measureText` / `estimateTextDimensions`.  `width` is
`Option Int` because when the wrapped line list is empty the source computes
`Math.max(...[])`, which is `-Infinity` in JavaScript (encoded `none`);
otherwise it is the finite ceiling of the widest line estimate. -/
structure TextMetrics where
  width : Option Int
  height : Int
  lines : List String
deriving DecidableEq, Repr

/-- Helper for `splitSpace`: walks the character list, cutting at every space
(`acc` holds the current chunk reversed). -/
def splitSpaceAux : List Char → List Char → List String
  | [], acc => [String.mk acc.reverse]
  | c :: rest, acc =>
    if c = ' ' then String.mk acc.reverse :: splitSpaceAux rest []
    else splitSpaceAux rest (c :: acc)

/-- JavaScript `text.split(' ')`: split on every single space, keeping empty
chunks (so `"".split(' ') == [""]` and `"a  b".split(' ') == ["a","","b"]`). -/
def splitSpace (s : String) : List String := splitSpaceAux s.data []

/-- Loop body of the greedy word-wrap in `estimateTextDimensions` (and the
identical loop in `measureText`).  The state is `(lines so far, currentLine)`.
`testLine = currentLine ? currentLine + " " + word : word`; the line is pushed
when the estimated width exceeds `maxWidth` and `currentLine` is truthy
(nonempty). -/
def wrapStep (avgCharWidth maxWidth : ℚ) (st : List String × String) (word : String) :
    List String × String :=
  let testLine := if st.2 = "" then word else st.2 ++ " " ++ word
  if (testLine.length : ℚ) * avgCharWidth > maxWidth ∧ st.2 ≠ "" then
    (st.1 ++ [st.2], word)
  else
    (st.1, testLine)

/-- After the loop: `if (currentLine) lines.push(currentLine)`. -/
def finishLines (st : List String × String) : List String :=
  if st.2 = "" then st.1 else st.1 ++ [st.2]

/-- Server-side fallback `estimateTextDimensions(text, fontSize, maxWidth?)`.
`avgCharWidth = fontSize * 0.6`, `lineHeight = fontSize * 1.2`.  The source
guards the wrap branch with JavaScript truthiness `if (maxWidth)`, so an
absent *or zero* `maxWidth` skips wrapping and yields the single line
`[text]`.  `width = Math.ceil(maxLineLength * avgCharWidth)` where
`maxLineLength = Math.max(...lines.map(l => l.length))` (`none` = `-Infinity`
when `lines` is empty); `height = Math.ceil(lines.length * lineHeight)`. -/
def estimateTextDimensions (text : String) (fontSize : ℚ) (maxWidth : Option ℚ) :
    TextMetrics :=
  let avgCharWidth := fontSize * 0.6
  let lineHeight := fontSize * 1.2
  let words := splitSpace text
  let lines : List String :=
    match maxWidth with
    | some mw =>
      if mw ≠ 0 then finishLines (words.foldl (wrapStep avgCharWidth mw) ([], ""))
      else [text]
    | none => [text]
  let maxLineLength : Option ℕ := (lines.map String.length).max?
  { width := maxLineLength.map (fun n => ⌈(n : ℚ) * avgCharWidth⌉)
    height := ⌈(lines.length : ℚ) * lineHeight⌉
    lines := lines }

/-- Operation `measureText(text, fontSize, fontFamily, fontWeight, maxWidth?)`.  In a
headless environment (`typeof document === 'undefined'`, or no 2d context) the
source falls back to `estimateTextDimensions`; the browser branch needs a real
canvas rendering context and is outside the embedding — per the spec the
estimate is the defined behavior.  `fontFamily`/`fontWeight` only affect the
browser branch. -/
def measureText (text : String) (fontSize : ℚ) (_fontFamily _fontWeight : String)
    (maxWidth : Option ℚ) : TextMetrics :=
  estimateTextDimensions text fontSize maxWidth

/-- Closed shape-type union `'rectangle' | 'circle' | 'diamond' | 'ellipse' |
'triangle'`. -/
inductive ShapeType where
  | rectangle
  | circle
  | diamond
  | ellipse
  | triangle
deriving DecidableEq, Repr, Inhabited

/-- Result record of `calculateShapeSize`. -/
structure ShapeSize where
  width : ℚ
  height : ℚ
  padding : ℚ
deriving DecidableEq, Repr, Inhabited

/-- Base padding table of `calculateShapeSize`. -/
def basePadding : ShapeType → ℚ
  | .rectangle => 16
  | .circle => 20
  | .diamond => 24
  | .ellipse => 20
  | .triangle => 20

/-- JavaScript `Math.max(a, b)` where `a` may be `-Infinity` (`none`). -/
def jsMax (a : Option ℚ) (b : ℚ) : ℚ :=
  match a with
  | none => b
  | some x => max x b

/-- JavaScript truthiness test for the `!text.trim()` guard: the trimmed text
is empty exactly when every character is whitespace. -/
def isBlank (s : String) : Bool :=
  s.data.all (fun c => c == ' ' || c == '\t' || c == '\n' || c == '\r')

/-- Operation `calculateShapeSize(text, shapeType, fontSize=14, fontFamily, fontWeight,
minWidth=80, minHeight=40)`: empty/whitespace text returns
`(minWidth, minHeight, 16)` directly; otherwise the text is measured wrapped
to a type-specific `maxTextWidth` and the final dimensions are type-specific
expansions, ceiling-rounded.  Note the circle branch takes
`Math.max(w + 2p, h + 2p, minWidth)` for *both* axes — `minHeight` is not
consulted there. -/
def calculateShapeSize (text : String) (shapeType : ShapeType) (fontSize : ℚ)
    (fontFamily fontWeight : String) (minWidth minHeight : ℚ) : ShapeSize :=
  if isBlank text then { width := minWidth, height := minHeight, padding := 16 }
  else
    let padding := basePadding shapeType
    let maxTextWidth : ℚ :=
      match shapeType with
      | .circle => max 120 (minWidth * 0.7)
      | .diamond => max 100 (minWidth * 0.6)
      | .triangle => max 80 (minWidth * 0.8)
      | _ => max 150 (minWidth - padding)
    let textMetrics := measureText text fontSize fontFamily fontWeight (some maxTextWidth)
    let tw : Option ℚ := textMetrics.width.map (fun w => (w : ℚ))
    let th : ℚ := (textMetrics.height : ℚ)
    let wh : ℚ × ℚ :=
      match shapeType with
      | .circle =>
        let circleSize := jsMax (tw.map (fun w => w + padding * 2))
          (max (th + padding * 2) minWidth)
        (circleSize, circleSize)
      | .diamond =>
        (jsMax (tw.map (fun w => w + padding * 2.5)) minWidth,
         max (th + padding * 2) minHeight)
      | .triangle =>
        (jsMax (tw.map (fun w => w + padding * 1.5)) minWidth,
         max (th + padding * 2) minHeight)
      | _ =>
        (jsMax (tw.map (fun w => w + padding)) minWidth,
         max (th + padding) minHeight)
    { width := (⌈wh.1⌉ : ℚ), height := (⌈wh.2⌉ : ℚ), padding := padding }

/-- Input record of `normalizeShapeSizes`.  The source declares `type: string`
and casts it into the shape union (`shape.type as any`); entries carry one of
the five shape types. -/
structure NormalizeEntry where
  text : String
  type : ShapeType
  minWidth : Option ℚ := none
  minHeight : Option ℚ := none
deriving DecidableEq, Repr, Inhabited

/-- JavaScript `v || d`: the default is taken when the field is absent *or*
zero (`0` is falsy). -/
def orDefault (v : Option ℚ) (d : ℚ) : ℚ :=
  match v with
  | none => d
  | some x => if x = 0 then d else x

/-- Per-entry sizing performed inside `normalizeShapeSizes`:
`calculateShapeSize(shape.text, shape.type, 14, 'Inter, sans-serif', '500',
shape.minWidth || 80, shape.minHeight || 40)`. -/
def entrySize (shape : NormalizeEntry) : ShapeSize :=
  calculateShapeSize shape.text shape.type 14 "Inter, sans-serif" "500"
    (orDefault shape.minWidth 80) (orDefault shape.minHeight 40)

/-- Operation `normalizeShapeSizes(shapes)`: size each entry independently
(`fontSize=14`, `'Inter, sans-serif'`, `'500'`, defaulted minima), then raise
every width to at least `0.7 * maxWidth` and every height to at least
`0.8 * maxHeight`, the maxima taken over the independently computed sizes.
`Math.max(...sizes.map(...))` over an empty batch is `-Infinity` (`none`),
but then the final map is over an empty list anyway. -/
def normalizeShapeSizes (shapes : List NormalizeEntry) : List ShapeSize :=
  let sizes := shapes.map entrySize
  let maxWidth : Option ℚ := (sizes.map (fun s => s.width)).max?
  let maxHeight : Option ℚ := (sizes.map (fun s => s.height)).max?
  sizes.map (fun size =>
    { size with
      width := jsMax (maxWidth.map (fun w => w * 0.7)) size.width
      height := jsMax (maxHeight.map (fun h => h * 0.8)) size.height })

/-! ## HistoryManager: the CanvasHistoryManager snapshot engine -/

/-- A drawable object as far as the history manager observes it: the
serialization round-trips `type`, position, `stroke` and the
`excludeFromExport` flag (via `toObject(['id','excludeFromExport'])` /
`enlivenObjects`).  `malformed` marks a value `JSON.stringify` cannot
serialize (e.g. a circular reference): stringify throws on it. -/
structure CanvasObject where
  objType : String
  left : ℚ
  top : ℚ
  stroke : Option String := none
  excludeFromExport : Bool := false
  malformed : Bool := false
deriving DecidableEq, Repr, Inhabited

/-- The filter predicate shared by `saveState` and `loadState`: user content is
whatever is not `excludeFromExport` and whose stroke is neither of the two
reserved grid colors. -/
def isUserObject (o : CanvasObject) : Bool :=
  !o.excludeFromExport && o.stroke != some "#F1F5F9" && o.stroke != some "#CBD5E1"

/-- The drawing surface: an ordered scene of objects plus background fields. -/
structure Canvas where
  objects : List CanvasObject
  backgroundColor : Option String := none
  backgroundImage : Option String := none
deriving DecidableEq, Repr, Inhabited

/-- The parsed form of the JSON payload `{ objects, backgroundImage,
backgroundColor }` that `saveState` stringifies. -/
structure SnapshotData where
  objects : List CanvasObject
  backgroundImage : Option String := none
  backgroundColor : Option String := none
deriving DecidableEq, Repr, Inhabited

/-- Serialization `JSON.stringify` of the filtered scene: the user objects (grid lines and
system decorations are filtered out *before* serialization) plus the
background fields.  `none` models stringify throwing on a malformed user
object. -/
def serializeCanvas (c : Canvas) : Option SnapshotData :=
  let objects := c.objects.filter isUserObject
  if objects.all (fun o => !o.malformed) then
    some { objects := objects
           backgroundImage := c.backgroundImage
           backgroundColor := c.backgroundColor }
  else none

/-- One history entry: `{ data: stateData, timestamp: Date.now() }`.  `data`
is kept in parsed form (stringify followed by parse is the identity on this
payload). -/
structure CanvasState where
  data : SnapshotData
  timestamp : ℕ
deriving DecidableEq, Repr, Inhabited

/-- The `CanvasHistoryManager` fields (the canvas handle is passed to the
operations explicitly).  Fresh managers start with empty history,
`currentIndex = -1`, cap 50 and all guard flags down. -/
structure CanvasHistoryManager where
  history : List CanvasState := []
  currentIndex : Int := -1
  maxHistorySize : ℕ := 50
  isRedoing : Bool := false
  isUndoing : Bool := false
  isLoading : Bool := false
deriving DecidableEq, Repr, Inhabited

namespace CanvasHistoryManager

/-- Operation `saveState()`: no-op when some guard flag is up; serialization failure is
caught (state untouched); otherwise truncate the redo branch when
`currentIndex < history.length - 1` (`slice(0, currentIndex + 1)`; indices
below `-1` do not occur, see `HistoryInvariant`), push the new snapshot,
increment `currentIndex`, and when the length exceeds `maxHistorySize` shift
off index 0 and decrement `currentIndex`.  `timestamp` is the `Date.now()`
value of the call. -/
def saveState (m : CanvasHistoryManager) (c : Canvas) (timestamp : ℕ) :
    CanvasHistoryManager :=
  if m.isRedoing || m.isUndoing || m.isLoading then m
  else
    match serializeCanvas c with
    | none => m
    | some stateData =>
      let history1 :=
        if m.currentIndex < (m.history.length : Int) - 1 then
          m.history.take (m.currentIndex + 1).toNat
        else m.history
      let history2 := history1 ++ [{ data := stateData, timestamp := timestamp }]
      if history2.length > m.maxHistorySize then
        { m with history := history2.drop 1, currentIndex := m.currentIndex + 1 - 1 }
      else
        { m with history := history2, currentIndex := m.currentIndex + 1 }

/-- Guard `canUndo() == currentIndex > 0`. -/
def canUndo (m : CanvasHistoryManager) : Bool := decide (0 < m.currentIndex)

/-- Guard `canRedo() == currentIndex < history.length - 1`. -/
def canRedo (m : CanvasHistoryManager) : Bool :=
  decide (m.currentIndex < (m.history.length : Int) - 1)

/-- Operation `loadState(stateData)`, modeled through to completion: it removes the
current user objects (same filter as `saveState`, decorations untouched),
re-adds the snapshot's objects in array order, restores `backgroundColor`
when truthy, and its settle timer then fires `renderAll` and lowers all three
guard flags.  Operations run sequentially on the event loop, so the completed
form (flags back down) is what the next operation observes.  History and
`currentIndex` are not touched. -/
def loadState (m : CanvasHistoryManager) (d : SnapshotData) (c : Canvas) :
    CanvasHistoryManager × Canvas :=
  let remaining := c.objects.filter (fun o => !(isUserObject o))
  let newBackground :=
    match d.backgroundColor with
    | some bg => if bg ≠ "" then some bg else c.backgroundColor
    | none => c.backgroundColor
  ({ m with isUndoing := false, isRedoing := false, isLoading := false },
   { c with objects := remaining ++ d.objects, backgroundColor := newBackground })

/-- Operation `undo()`: when `canUndo()`, raise `isUndoing`, decrement `currentIndex`,
replay `history[currentIndex].data`, and return `true`; otherwise return
`false` untouched. -/
def undo (m : CanvasHistoryManager) (c : Canvas) :
    CanvasHistoryManager × Canvas × Bool :=
  if canUndo m then
    let m1 := { m with isUndoing := true, currentIndex := m.currentIndex - 1 }
    let st := m1.history.getD m1.currentIndex.toNat default
    let r := loadState m1 st.data c
    (r.1, r.2, true)
  else (m, c, false)

/-- Operation `redo()`: symmetric to `undo` with `isRedoing` and an increment. -/
def redo (m : CanvasHistoryManager) (c : Canvas) :
    CanvasHistoryManager × Canvas × Bool :=
  if canRedo m then
    let m1 := { m with isRedoing := true, currentIndex := m.currentIndex + 1 }
    let st := m1.history.getD m1.currentIndex.toNat default
    let r := loadState m1 st.data c
    (r.1, r.2, true)
  else (m, c, false)

/-- Operation `clear()`: drop the whole history, reset the index, and capture a fresh
baseline with `saveState()`. -/
def clear (m : CanvasHistoryManager) (c : Canvas) (timestamp : ℕ) :
    CanvasHistoryManager :=
  saveState { m with history := [], currentIndex := -1 } c timestamp

/-- Fold a sequence of `(canvas, timestamp)` mutation captures through
`saveState`. -/
def saveMany (m : CanvasHistoryManager) (steps : List (Canvas × ℕ)) :
    CanvasHistoryManager :=
  steps.foldl (fun acc p => saveState acc p.1 p.2) m

/-- Iterate `undo` `n` times, threading manager and canvas. -/
def undoN : ℕ → CanvasHistoryManager → Canvas → CanvasHistoryManager × Canvas
  | 0, m, c => (m, c)
  | n + 1, m, c =>
    let p := undoN n m c
    let u := undo p.1 p.2
    (u.1, u.2.1)

end CanvasHistoryManager

/-- The documented index invariant: `-1 <= currentIndex <= history.length - 1`
with `currentIndex = -1` only for an empty history. -/
def HistoryInvariant (m : CanvasHistoryManager) : Prop :=
  -1 ≤ m.currentIndex ∧ m.currentIndex ≤ (m.history.length : Int) - 1 ∧
    (m.currentIndex = -1 → m.history = [])

/-! ## Helper lemmas about the history manager -/

namespace CanvasHistoryManager

/-- A `saveState` call with a guard flag up is a no-op. -/
theorem saveState_guarded (m : CanvasHistoryManager) (c : Canvas) (ts : ℕ)
    (h : (m.isRedoing || m.isUndoing || m.isLoading) = true) :
    saveState m c ts = m := by
  simp [saveState, h]

/-- A `saveState` call whose serialization throws is a no-op. -/
theorem saveState_of_serialize_none (m : CanvasHistoryManager) (c : Canvas) (ts : ℕ)
    (h : serializeCanvas c = none) : saveState m c ts = m := by
  unfold saveState
  rw [h]
  split <;> rfl

/-- Operation `saveState` preserves the index invariant. -/
theorem invariant_saveState (m : CanvasHistoryManager) (c : Canvas) (ts : ℕ)
    (hinv : HistoryInvariant m) : HistoryInvariant (saveState m c ts) := by
  obtain ⟨h1, h2, h3⟩ := hinv
  have hL : ∀ h : List CanvasState, h.length = 0 → h = [] := fun h hh =>
    List.length_eq_zero.mp hh
  by_cases hg : (m.isRedoing || m.isUndoing || m.isLoading) = true
  · rw [saveState_guarded m c ts hg]; exact ⟨h1, h2, h3⟩
  · cases hs : serializeCanvas c with
    | none => rw [saveState_of_serialize_none m c ts hs]; exact ⟨h1, h2, h3⟩
    | some d =>
      unfold saveState
      rw [if_neg hg, hs]
      unfold HistoryInvariant
      dsimp only
      by_cases ht : m.currentIndex < (m.history.length : Int) - 1
      · rw [if_pos ht]
        split
        · next hev =>
          dsimp only
          simp only [List.length_append, List.length_take,
            List.length_singleton] at hev
          refine ⟨by omega, ?_, ?_⟩
          · simp only [List.length_drop, List.length_append, List.length_take,
              List.length_singleton]
            omega
          · intro hidx
            apply hL
            simp only [List.length_drop, List.length_append, List.length_take,
              List.length_singleton]
            omega
        · next hev =>
          dsimp only
          simp only [not_lt, List.length_append, List.length_take,
            List.length_singleton] at hev
          refine ⟨by omega, ?_, fun hidx => absurd hidx (by omega)⟩
          simp only [List.length_append, List.length_take, List.length_singleton]
          omega
      · rw [if_neg ht]
        split
        · next hev =>
          dsimp only
          simp only [List.length_append, List.length_singleton] at hev
          refine ⟨by omega, ?_, ?_⟩
          · simp only [List.length_drop, List.length_append, List.length_singleton]
            omega
          · intro hidx
            apply hL
            simp only [List.length_drop, List.length_append, List.length_singleton]
            omega
        · next hev =>
          dsimp only
          simp only [not_lt, List.length_append, List.length_singleton] at hev
          refine ⟨by omega, ?_, fun hidx => absurd hidx (by omega)⟩
          simp only [List.length_append, List.length_singleton]
          omega

/-- Operation `undo` preserves the index invariant. -/
theorem invariant_undo (m : CanvasHistoryManager) (c : Canvas)
    (hinv : HistoryInvariant m) : HistoryInvariant (undo m c).1 := by
  obtain ⟨h1, h2, h3⟩ := hinv
  by_cases h : canUndo m = true
  · have hidx : 0 < m.currentIndex := by
      simpa [canUndo] using h
    simp only [undo, h, if_true, loadState]
    unfold HistoryInvariant
    dsimp only
    exact ⟨by omega, by omega, fun hx => absurd hx (by omega)⟩
  · simp only [undo, Bool.not_eq_true] at h ⊢
    rw [if_neg (by simp [h])]
    exact ⟨h1, h2, h3⟩

/-- Operation `redo` preserves the index invariant. -/
theorem invariant_redo (m : CanvasHistoryManager) (c : Canvas)
    (hinv : HistoryInvariant m) : HistoryInvariant (redo m c).1 := by
  obtain ⟨h1, h2, h3⟩ := hinv
  by_cases h : canRedo m = true
  · have hidx : m.currentIndex < (m.history.length : Int) - 1 := by
      simpa [canRedo] using h
    simp only [redo, h, if_true, loadState]
    unfold HistoryInvariant
    dsimp only
    exact ⟨by omega, by omega, fun hx => absurd hx (by omega)⟩
  · simp only [redo, Bool.not_eq_true] at h ⊢
    rw [if_neg (by simp [h])]
    exact ⟨h1, h2, h3⟩

/-- Operation `loadState` touches neither `history` nor `currentIndex`. -/
theorem invariant_loadState (m : CanvasHistoryManager) (d : SnapshotData) (c : Canvas)
    (hinv : HistoryInvariant m) : HistoryInvariant (loadState m d c).1 := by
  obtain ⟨h1, h2, h3⟩ := hinv
  exact ⟨h1, h2, h3⟩

/-- Operation `clear` preserves the index invariant. -/
theorem invariant_clear (m : CanvasHistoryManager) (c : Canvas) (ts : ℕ) :
    HistoryInvariant (clear m c ts) := by
  unfold clear
  apply invariant_saveState
  refine ⟨?_, ?_, ?_⟩ <;> dsimp only
  · omega
  · omega
  · exact fun _ => rfl

end CanvasHistoryManager

namespace CanvasHistoryManager

/-- Normal form of a successful, unguarded `saveState`: the new snapshot is
appended at the end and `currentIndex` points at it. -/
theorem saveState_success_form (m : CanvasHistoryManager) (c : Canvas) (ts : ℕ)
    (d : SnapshotData)
    (hu : m.isUndoing = false) (hr : m.isRedoing = false) (hl : m.isLoading = false)
    (hs : serializeCanvas c = some d) (hinv : HistoryInvariant m)
    (hcap : 0 < m.maxHistorySize) :
    ∃ H : List CanvasState,
      saveState m c ts =
        { m with history := H ++ [{ data := d, timestamp := ts }],
                 currentIndex := (H.length : Int) } := by
  obtain ⟨h1, h2, h3⟩ := hinv
  unfold saveState
  rw [if_neg (by simp [hu, hr, hl]), hs]
  dsimp only
  by_cases ht : m.currentIndex < (m.history.length : Int) - 1
  · rw [if_pos ht]
    have hlen1 : ((m.history.take (m.currentIndex + 1).toNat).length : Int)
        = m.currentIndex + 1 := by
      simp only [List.length_take]
      omega
    split
    · next hev =>
      simp only [List.length_append, List.length_take, List.length_singleton] at hev
      refine ⟨(m.history.take (m.currentIndex + 1).toNat).drop 1, ?_⟩
      rw [List.drop_append_of_le_length (by simp only [List.length_take]; omega)]
      simp only [CanvasHistoryManager.mk.injEq, and_true, true_and,
        List.length_drop, List.length_take]
      omega
    · next hev =>
      refine ⟨m.history.take (m.currentIndex + 1).toNat, ?_⟩
      simp only [CanvasHistoryManager.mk.injEq, and_true, true_and,
        List.length_take]
      omega
  · rw [if_neg ht]
    have hidx : m.currentIndex = (m.history.length : Int) - 1 := by omega
    split
    · next hev =>
      simp only [List.length_append, List.length_singleton] at hev
      refine ⟨m.history.drop 1, ?_⟩
      rw [List.drop_append_of_le_length (by omega)]
      simp only [CanvasHistoryManager.mk.injEq, and_true, true_and,
        List.length_drop]
      omega
    · next hev =>
      refine ⟨m.history, ?_⟩
      simp only [CanvasHistoryManager.mk.injEq, and_true, true_and]
      omega

end CanvasHistoryManager

namespace CanvasHistoryManager

/-- A successful, unguarded `saveState` from a manager already at the end of
its history keeps the previous last snapshot in place and appends the new one
after it (the cap eviction only removes at index 0). -/
theorem saveState_atEnd_form (m : CanvasHistoryManager) (c : Canvas) (ts : ℕ)
    (d : SnapshotData) (K : List CanvasState) (s : CanvasState)
    (hu : m.isUndoing = false) (hr : m.isRedoing = false) (hl : m.isLoading = false)
    (hs : serializeCanvas c = some d) (hK : m.history = K ++ [s])
    (hidx : m.currentIndex = (m.history.length : Int) - 1)
    (hcap : 2 ≤ m.maxHistorySize) :
    ∃ K2 : List CanvasState,
      saveState m c ts =
        { m with history := K2 ++ [s, { data := d, timestamp := ts }],
                 currentIndex := (K2.length : Int) + 1 } := by
  unfold saveState
  rw [if_neg (by simp [hu, hr, hl]), hs]
  dsimp only
  have hnt : ¬(m.currentIndex < (m.history.length : Int) - 1) := by omega
  rw [if_neg hnt]
  split
  · next hev =>
    simp only [List.length_append, List.length_singleton] at hev
    have hKlen : 1 ≤ K.length := by
      rw [hK] at hev
      simp only [List.length_append, List.length_singleton] at hev
      omega
    refine ⟨K.drop 1, ?_⟩
    rw [hK, List.append_assoc, List.singleton_append,
      List.drop_append_of_le_length (by omega)]
    simp only [CanvasHistoryManager.mk.injEq, and_true, true_and,
      List.length_drop]
    rw [hK] at hidx
    simp only [List.length_append, List.length_singleton] at hidx
    omega
  · next hev =>
    refine ⟨K, ?_⟩
    rw [hK, List.append_assoc, List.singleton_append]
    simp only [CanvasHistoryManager.mk.injEq, and_true, true_and]
    rw [hK] at hidx
    simp only [List.length_append, List.length_singleton] at hidx
    omega

end CanvasHistoryManager

/-- The snapshot objects are exactly the filtered user objects of the canvas. -/
theorem serializeCanvas_objects (c : Canvas) (d : SnapshotData)
    (hs : serializeCanvas c = some d) :
    d.objects = c.objects.filter isUserObject := by
  unfold serializeCanvas at hs
  dsimp only at hs
  split at hs
  · cases hs
    rfl
  · cases hs

/-- Every object stored by a successful serialization passes the user filter. -/
theorem serializeCanvas_all_user (c : Canvas) (d : SnapshotData)
    (hs : serializeCanvas c = some d) :
    ∀ o ∈ d.objects, isUserObject o = true := by
  rw [serializeCanvas_objects c d hs]
  intro o ho
  exact List.of_mem_filter ho

/-- Filtering user objects after a replay that stripped the previous user
objects and re-added an all-user list gives back exactly that list. -/
theorem filter_user_strip_append (xs ys : List CanvasObject)
    (hys : ∀ o ∈ ys, isUserObject o = true) :
    ((xs.filter (fun o => !(isUserObject o)) ++ ys).filter isUserObject) = ys := by
  rw [List.filter_append]
  have h1 : (xs.filter (fun o => !(isUserObject o))).filter isUserObject = [] := by
    rw [List.filter_filter]
    apply List.filter_eq_nil_iff.mpr
    intro o _
    simp
  rw [h1, List.filter_eq_self.mpr hys, List.nil_append]

/-- Canvas contents after `loadState` of an all-user snapshot: the user
objects are exactly the snapshot's objects. -/
theorem loadState_userObjects (m : CanvasHistoryManager) (d : SnapshotData) (c : Canvas)
    (hd : ∀ o ∈ d.objects, isUserObject o = true) :
    ((CanvasHistoryManager.loadState m d c).2.objects.filter isUserObject) = d.objects := by
  unfold CanvasHistoryManager.loadState
  dsimp only
  exact filter_user_strip_append c.objects d.objects hd

/-- Reading the element placed right after a prefix of known length. -/
theorem getD_append_first (K : List CanvasState) (a b dflt : CanvasState) :
    (K ++ [a, b]).getD K.length dflt = a := by
  rw [List.getD_eq_getElem?_getD, List.getElem?_append_right (le_refl K.length)]
  simp

/-- Reading the element placed one past a prefix of known length. -/
theorem getD_append_second (K : List CanvasState) (a b dflt : CanvasState) :
    (K ++ [a, b]).getD (K.length + 1) dflt = b := by
  rw [List.getD_eq_getElem?_getD,
    List.getElem?_append_right (Nat.le_add_right K.length 1)]
  simp

/-! ## Claim theorems -/

open CanvasHistoryManager in
/-- C4: every HistoryManager operation (saveState, undo, redo, loadState,
clear), starting from any state satisfying the invariant, preserves
`-1 <= currentIndex <= length(history) - 1`, with `currentIndex = -1` only
when the history is empty. -/
theorem history_index_invariant (m : CanvasHistoryManager) (c : Canvas) (ts : ℕ)
    (d : SnapshotData) (hinv : HistoryInvariant m) :
    HistoryInvariant (saveState m c ts) ∧
    HistoryInvariant (undo m c).1 ∧
    HistoryInvariant (redo m c).1 ∧
    HistoryInvariant (loadState m d c).1 ∧
    HistoryInvariant (clear m c ts) :=
  ⟨invariant_saveState m c ts hinv, invariant_undo m c hinv, invariant_redo m c hinv,
    invariant_loadState m d c hinv, invariant_clear m c ts⟩

/-- Closed instance of C4 at the fresh manager and a one-object canvas. -/
theorem history_index_invariant_witness :
    HistoryInvariant { } ∧
    HistoryInvariant
      (CanvasHistoryManager.saveState { } ⟨[⟨"rect", 1, 2, none, false, false⟩], none, none⟩ 5) :=
  have hinv : HistoryInvariant { } := by
    unfold HistoryInvariant
    refine ⟨by decide, by decide, fun _ => rfl⟩
  ⟨hinv,
    (history_index_invariant { } ⟨[⟨"rect", 1, 2, none, false, false⟩], none, none⟩ 5
      ⟨[], none, none⟩ hinv).1⟩

open CanvasHistoryManager in
/-- C5: if serialization of the current canvas state throws inside
`saveState()`, the call is abandoned: history and `currentIndex` are left
exactly as they were, no corrupt entry is appended, and no exception
propagates (the embedded `saveState` is total and returns `m` unchanged). -/
theorem saveState_failure_atomic (m : CanvasHistoryManager) (c : Canvas) (ts : ℕ)
    (h : serializeCanvas c = none) : saveState m c ts = m :=
  saveState_of_serialize_none m c ts h

/-- Closed instance of C5: a canvas holding a malformed user object fails to
serialize and `saveState` leaves the manager untouched. -/
theorem saveState_failure_atomic_witness :
    serializeCanvas ⟨[⟨"bad", 0, 0, none, false, true⟩], none, none⟩ = none ∧
    CanvasHistoryManager.saveState ⟨[⟨⟨[], none, none⟩, 0⟩], 0, 50, false, false, false⟩
      ⟨[⟨"bad", 0, 0, none, false, true⟩], none, none⟩ 7
      = ⟨[⟨⟨[], none, none⟩, 0⟩], 0, 50, false, false, false⟩ :=
  ⟨by decide,
    saveState_failure_atomic ⟨[⟨⟨[], none, none⟩, 0⟩], 0, 50, false, false, false⟩
      ⟨[⟨"bad", 0, 0, none, false, true⟩], none, none⟩ 7 (by decide)⟩

open CanvasHistoryManager in
/-- C7: `undo()` returns false and changes nothing (manager, canvas, and in
particular history, `currentIndex` and the three guard flags) when `canUndo()`
is false, and symmetrically for `redo()`; moreover
`canUndo() == (currentIndex > 0)` and
`canRedo() == (currentIndex < length(history) - 1)`. -/
theorem guard_noop (m : CanvasHistoryManager) (c : Canvas) :
    (canUndo m = false → undo m c = (m, c, false)) ∧
    (canRedo m = false → redo m c = (m, c, false)) ∧
    (canUndo m = true ↔ 0 < m.currentIndex) ∧
    (canRedo m = true ↔ m.currentIndex < (m.history.length : Int) - 1) := by
  refine ⟨?_, ?_, ?_, ?_⟩
  · intro h
    simp [undo, h]
  · intro h
    simp [redo, h]
  · simp [canUndo]
  · simp [canRedo]

/-- Closed instance of C7 at a fresh manager (index -1, empty history). -/
theorem guard_noop_witness :
    CanvasHistoryManager.undo { } ⟨[], none, none⟩ = ({ }, ⟨[], none, none⟩, false) ∧
    CanvasHistoryManager.redo { } ⟨[], none, none⟩ = ({ }, ⟨[], none, none⟩, false) :=
  ⟨(guard_noop { } ⟨[], none, none⟩).1 (by decide),
    (guard_noop { } ⟨[], none, none⟩).2.1 (by decide)⟩

open CanvasHistoryManager in
/-- C2: from history `[S0, S1, S2]` with `currentIndex = 2`, two `undo()`
calls (both returning true) leave `currentIndex = 0`, and a subsequent
unguarded `saveState()` with new content yields history `[S0, S_new]` — S1
and S2 are discarded and `canRedo()` is false afterwards. -/
theorem redo_branch_truncation (s0 s1 s2 : CanvasState) (c cNew : Canvas) (ts : ℕ)
    (d : SnapshotData) (hd : serializeCanvas cNew = some d)
    (m : CanvasHistoryManager) (hm : m = ⟨[s0, s1, s2], 2, 50, false, false, false⟩) :
    (undo m c).2.2 = true ∧
    (undo (undo m c).1 (undo m c).2.1).2.2 = true ∧
    (undo (undo m c).1 (undo m c).2.1).1.currentIndex = 0 ∧
    (saveState (undo (undo m c).1 (undo m c).2.1).1 cNew ts).history
      = [s0, { data := d, timestamp := ts }] ∧
    canRedo (saveState (undo (undo m c).1 (undo m c).2.1).1 cNew ts) = false := by
  subst hm
  have hu1 : (undo ⟨[s0, s1, s2], 2, 50, false, false, false⟩ c).1
      = ⟨[s0, s1, s2], 1, 50, false, false, false⟩ := by
    simp [undo, canUndo, loadState]
  have hb1 : (undo ⟨[s0, s1, s2], 2, 50, false, false, false⟩ c).2.2 = true := by
    simp [undo, canUndo]
  rw [hu1]
  have hu2 : ∀ x : Canvas, (undo ⟨[s0, s1, s2], 1, 50, false, false, false⟩ x).1
      = ⟨[s0, s1, s2], 0, 50, false, false, false⟩ := by
    intro x
    simp [undo, canUndo, loadState]
  have hb2 : ∀ x : Canvas, (undo ⟨[s0, s1, s2], 1, 50, false, false, false⟩ x).2.2 = true := by
    intro x
    simp [undo, canUndo]
  rw [hu2]
  have hsv : saveState ⟨[s0, s1, s2], 0, 50, false, false, false⟩ cNew ts
      = ⟨[s0, { data := d, timestamp := ts }], 1, 50, false, false, false⟩ := by
    unfold saveState
    rw [hd]
    norm_num
  rw [hsv]
  refine ⟨hb1, hb2 _, rfl, rfl, by simp [canRedo]⟩

/-- Closed instance of C2 with three concrete snapshots and a concrete new
canvas. -/
theorem redo_branch_truncation_witness :
    (CanvasHistoryManager.undo
        ⟨[⟨⟨[], none, none⟩, 0⟩, ⟨⟨[], none, none⟩, 1⟩, ⟨⟨[], none, none⟩, 2⟩],
          2, 50, false, false, false⟩ ⟨[], none, none⟩).2.2 = true ∧
    (CanvasHistoryManager.undo
        (CanvasHistoryManager.undo
          ⟨[⟨⟨[], none, none⟩, 0⟩, ⟨⟨[], none, none⟩, 1⟩, ⟨⟨[], none, none⟩, 2⟩],
            2, 50, false, false, false⟩ ⟨[], none, none⟩).1
        (CanvasHistoryManager.undo
          ⟨[⟨⟨[], none, none⟩, 0⟩, ⟨⟨[], none, none⟩, 1⟩, ⟨⟨[], none, none⟩, 2⟩],
            2, 50, false, false, false⟩ ⟨[], none, none⟩).2.1).2.2 = true ∧
    (CanvasHistoryManager.undo
        (CanvasHistoryManager.undo
          ⟨[⟨⟨[], none, none⟩, 0⟩, ⟨⟨[], none, none⟩, 1⟩, ⟨⟨[], none, none⟩, 2⟩],
            2, 50, false, false, false⟩ ⟨[], none, none⟩).1
        (CanvasHistoryManager.undo
          ⟨[⟨⟨[], none, none⟩, 0⟩, ⟨⟨[], none, none⟩, 1⟩, ⟨⟨[], none, none⟩, 2⟩],
            2, 50, false, false, false⟩ ⟨[], none, none⟩).2.1).1.currentIndex = 0 ∧
    (CanvasHistoryManager.saveState
        (CanvasHistoryManager.undo
          (CanvasHistoryManager.undo
            ⟨[⟨⟨[], none, none⟩, 0⟩, ⟨⟨[], none, none⟩, 1⟩, ⟨⟨[], none, none⟩, 2⟩],
              2, 50, false, false, false⟩ ⟨[], none, none⟩).1
          (CanvasHistoryManager.undo
            ⟨[⟨⟨[], none, none⟩, 0⟩, ⟨⟨[], none, none⟩, 1⟩, ⟨⟨[], none, none⟩, 2⟩],
              2, 50, false, false, false⟩ ⟨[], none, none⟩).2.1).1
        ⟨[⟨"n", 3, 4, none, false, false⟩], none, none⟩ 9).history
      = [⟨⟨[], none, none⟩, 0⟩,
         { data := ⟨[⟨"n", 3, 4, none, false, false⟩], none, none⟩, timestamp := 9 }] ∧
    CanvasHistoryManager.canRedo
      (CanvasHistoryManager.saveState
        (CanvasHistoryManager.undo
          (CanvasHistoryManager.undo
            ⟨[⟨⟨[], none, none⟩, 0⟩, ⟨⟨[], none, none⟩, 1⟩, ⟨⟨[], none, none⟩, 2⟩],
              2, 50, false, false, false⟩ ⟨[], none, none⟩).1
          (CanvasHistoryManager.undo
            ⟨[⟨⟨[], none, none⟩, 0⟩, ⟨⟨[], none, none⟩, 1⟩, ⟨⟨[], none, none⟩, 2⟩],
              2, 50, false, false, false⟩ ⟨[], none, none⟩).2.1).1
        ⟨[⟨"n", 3, 4, none, false, false⟩], none, none⟩ 9) = false :=
  redo_branch_truncation ⟨⟨[], none, none⟩, 0⟩ ⟨⟨[], none, none⟩, 1⟩ ⟨⟨[], none, none⟩, 2⟩
    ⟨[], none, none⟩ ⟨[⟨"n", 3, 4, none, false, false⟩], none, none⟩ 9
    ⟨[⟨"n", 3, 4, none, false, false⟩], none, none⟩ (by decide) _ rfl

namespace CanvasHistoryManager

/-- A permitted `undo` reports success. -/
theorem undo_ret (m : CanvasHistoryManager) (c : Canvas) (h : canUndo m = true) :
    (undo m c).2.2 = true := by
  simp [undo, h]

/-- Manager after a permitted `undo`: index decremented, flags settled. -/
theorem undo_fst (m : CanvasHistoryManager) (c : Canvas) (h : canUndo m = true) :
    (undo m c).1 = { m with
      isUndoing := false, isRedoing := false, isLoading := false,
      currentIndex := m.currentIndex - 1 } := by
  simp [undo, h, loadState]

/-- Canvas objects after a permitted `undo`: decorations survive, the target
snapshot objects are re-added in order. -/
theorem undo_snd_objects (m : CanvasHistoryManager) (c : Canvas) (h : canUndo m = true) :
    (undo m c).2.1.objects
      = c.objects.filter (fun o => !(isUserObject o))
        ++ (m.history.getD (m.currentIndex - 1).toNat default).data.objects := by
  simp [undo, h, loadState]

/-- A permitted `redo` reports success. -/
theorem redo_ret (m : CanvasHistoryManager) (c : Canvas) (h : canRedo m = true) :
    (redo m c).2.2 = true := by
  simp [redo, h]

/-- Manager after a permitted `redo`: index incremented, flags settled. -/
theorem redo_fst (m : CanvasHistoryManager) (c : Canvas) (h : canRedo m = true) :
    (redo m c).1 = { m with
      isRedoing := false, isUndoing := false, isLoading := false,
      currentIndex := m.currentIndex + 1 } := by
  simp [redo, h, loadState]

/-- Canvas objects after a permitted `redo`. -/
theorem redo_snd_objects (m : CanvasHistoryManager) (c : Canvas) (h : canRedo m = true) :
    (redo m c).2.1.objects
      = c.objects.filter (fun o => !(isUserObject o))
        ++ (m.history.getD (m.currentIndex + 1).toNat default).data.objects := by
  simp [redo, h, loadState]

end CanvasHistoryManager

open CanvasHistoryManager in
/-- C1: after `saveState()` captures S0 from canvas `c0`, the surface mutates
to `c1` and `saveState()` captures S1, `undo()` returns true and restores the
surface's user objects (everything modulo the exclusion filter) to exactly
those of `c0`, and a subsequent `redo()` returns true and restores them to
those of `c1`. -/
theorem undo_redo_roundtrip
    (m : CanvasHistoryManager) (c0 c1 : Canvas) (ts0 ts1 : ℕ) (d0 d1 : SnapshotData)
    (hinv : HistoryInvariant m) (hcap : m.maxHistorySize = 50)
    (hu : m.isUndoing = false) (hr : m.isRedoing = false) (hl : m.isLoading = false)
    (h0 : serializeCanvas c0 = some d0) (h1 : serializeCanvas c1 = some d1)
    (m2 : CanvasHistoryManager)
    (hm2 : m2 = saveState (saveState m c0 ts0) c1 ts1) :
    (undo m2 c1).2.2 = true ∧
    (undo m2 c1).2.1.objects.filter isUserObject = c0.objects.filter isUserObject ∧
    (redo (undo m2 c1).1 (undo m2 c1).2.1).2.2 = true ∧
    (redo (undo m2 c1).1 (undo m2 c1).2.1).2.1.objects.filter isUserObject
      = c1.objects.filter isUserObject := by
  obtain ⟨H, hEq1⟩ := saveState_success_form m c0 ts0 d0 hu hr hl h0 hinv (by omega)
  obtain ⟨K, hEq2⟩ := saveState_atEnd_form (saveState m c0 ts0) c1 ts1 d1 H
      { data := d0, timestamp := ts0 }
      (by rw [hEq1]; exact hu) (by rw [hEq1]; exact hr) (by rw [hEq1]; exact hl)
      h1 (by rw [hEq1]) (by rw [hEq1]; dsimp; simp [List.length_append])
      (by rw [hEq1]; dsimp; omega)
  rw [hEq1] at hEq2
  dsimp only at hEq2
  have hm2e : m2 = ⟨K ++ [⟨d0, ts0⟩, ⟨d1, ts1⟩], (K.length : Int) + 1,
      m.maxHistorySize, false, false, false⟩ := by
    rw [hm2, hEq1, hEq2, hu, hr, hl]
  have hcanU : canUndo m2 = true := by
    rw [hm2e]
    simp only [canUndo, decide_eq_true_eq]
    positivity
  have hidx2 : m2.currentIndex = (K.length : Int) + 1 := by rw [hm2e]
  have hhist2 : m2.history = K ++ [⟨d0, ts0⟩, ⟨d1, ts1⟩] := by rw [hm2e]
  have htarget : (m2.history.getD (m2.currentIndex - 1).toNat default)
      = { data := d0, timestamp := ts0 } := by
    rw [hhist2, hidx2]
    have : ((K.length : Int) + 1 - 1).toNat = K.length := by omega
    rw [this, getD_append_first]
  have hc2 : (undo m2 c1).2.1.objects.filter isUserObject = c0.objects.filter isUserObject := by
    rw [undo_snd_objects m2 c1 hcanU, htarget]
    dsimp only
    rw [filter_user_strip_append c1.objects d0.objects (serializeCanvas_all_user c0 d0 h0)]
    exact serializeCanvas_objects c0 d0 h0
  have hM3 : (undo m2 c1).1 = { m2 with
      isUndoing := false, isRedoing := false, isLoading := false,
      currentIndex := (K.length : Int) } := by
    rw [undo_fst m2 c1 hcanU, hidx2]
    simp
  have hcanR : canRedo (undo m2 c1).1 = true := by
    rw [hM3]
    simp only [canRedo, decide_eq_true_eq]
    rw [hhist2]
    simp only [List.length_append, List.length_cons, List.length_singleton]
    push_cast
    omega
  have htarget2 : ((undo m2 c1).1.history.getD ((undo m2 c1).1.currentIndex + 1).toNat default)
      = { data := d1, timestamp := ts1 } := by
    rw [hM3]
    dsimp only
    rw [hhist2]
    have : ((K.length : Int) + 1).toNat = K.length + 1 := by omega
    rw [this, getD_append_second]
  have hc4 : (redo (undo m2 c1).1 (undo m2 c1).2.1).2.1.objects.filter isUserObject
      = c1.objects.filter isUserObject := by
    rw [redo_snd_objects _ _ hcanR, htarget2]
    dsimp only
    rw [filter_user_strip_append _ d1.objects (serializeCanvas_all_user c1 d1 h1)]
    exact serializeCanvas_objects c1 d1 h1
  exact ⟨undo_ret m2 c1 hcanU, hc2, redo_ret _ _ hcanR, hc4⟩

/-- Closed instance of C1: two captures from one-object and two-object
canvases, then undo and redo, starting at a fresh manager. -/
theorem undo_redo_roundtrip_witness :
    (CanvasHistoryManager.undo
        (CanvasHistoryManager.saveState
          (CanvasHistoryManager.saveState { } ⟨[⟨"rect", 1, 2, none, false, false⟩], none, none⟩ 0)
          ⟨[⟨"rect", 1, 2, none, false, false⟩, ⟨"circ", 5, 6, none, false, false⟩], none, none⟩ 1)
        ⟨[⟨"rect", 1, 2, none, false, false⟩, ⟨"circ", 5, 6, none, false, false⟩], none, none⟩).2.2
      = true ∧
    (CanvasHistoryManager.undo
        (CanvasHistoryManager.saveState
          (CanvasHistoryManager.saveState { } ⟨[⟨"rect", 1, 2, none, false, false⟩], none, none⟩ 0)
          ⟨[⟨"rect", 1, 2, none, false, false⟩, ⟨"circ", 5, 6, none, false, false⟩], none, none⟩ 1)
        ⟨[⟨"rect", 1, 2, none, false, false⟩, ⟨"circ", 5, 6, none, false, false⟩], none, none⟩).2.1.objects.filter
        isUserObject
      = List.filter isUserObject [⟨"rect", 1, 2, none, false, false⟩] ∧
    (CanvasHistoryManager.redo
        (CanvasHistoryManager.undo
          (CanvasHistoryManager.saveState
            (CanvasHistoryManager.saveState { } ⟨[⟨"rect", 1, 2, none, false, false⟩], none, none⟩ 0)
            ⟨[⟨"rect", 1, 2, none, false, false⟩, ⟨"circ", 5, 6, none, false, false⟩], none, none⟩ 1)
          ⟨[⟨"rect", 1, 2, none, false, false⟩, ⟨"circ", 5, 6, none, false, false⟩], none, none⟩).1
        (CanvasHistoryManager.undo
          (CanvasHistoryManager.saveState
            (CanvasHistoryManager.saveState { } ⟨[⟨"rect", 1, 2, none, false, false⟩], none, none⟩ 0)
            ⟨[⟨"rect", 1, 2, none, false, false⟩, ⟨"circ", 5, 6, none, false, false⟩], none, none⟩ 1)
          ⟨[⟨"rect", 1, 2, none, false, false⟩, ⟨"circ", 5, 6, none, false, false⟩], none, none⟩).2.1).2.2
      = true ∧
    (CanvasHistoryManager.redo
        (CanvasHistoryManager.undo
          (CanvasHistoryManager.saveState
            (CanvasHistoryManager.saveState { } ⟨[⟨"rect", 1, 2, none, false, false⟩], none, none⟩ 0)
            ⟨[⟨"rect", 1, 2, none, false, false⟩, ⟨"circ", 5, 6, none, false, false⟩], none, none⟩ 1)
          ⟨[⟨"rect", 1, 2, none, false, false⟩, ⟨"circ", 5, 6, none, false, false⟩], none, none⟩).1
        (CanvasHistoryManager.undo
          (CanvasHistoryManager.saveState
            (CanvasHistoryManager.saveState { } ⟨[⟨"rect", 1, 2, none, false, false⟩], none, none⟩ 0)
            ⟨[⟨"rect", 1, 2, none, false, false⟩, ⟨"circ", 5, 6, none, false, false⟩], none, none⟩ 1)
          ⟨[⟨"rect", 1, 2, none, false, false⟩, ⟨"circ", 5, 6, none, false, false⟩], none, none⟩).2.1).2.1.objects.filter
        isUserObject
      = List.filter isUserObject
          [⟨"rect", 1, 2, none, false, false⟩, ⟨"circ", 5, 6, none, false, false⟩] :=
  undo_redo_roundtrip { } ⟨[⟨"rect", 1, 2, none, false, false⟩], none, none⟩
    ⟨[⟨"rect", 1, 2, none, false, false⟩, ⟨"circ", 5, 6, none, false, false⟩], none, none⟩ 0 1
    ⟨[⟨"rect", 1, 2, none, false, false⟩], none, none⟩
    ⟨[⟨"rect", 1, 2, none, false, false⟩, ⟨"circ", 5, 6, none, false, false⟩], none, none⟩
    (by unfold HistoryInvariant; exact ⟨by decide, by decide, fun _ => rfl⟩)
    rfl rfl rfl rfl (by decide) (by decide) _ rfl

/-- Snapshot produced by one capture step (the serialization is assumed to
succeed; `getD` resolves it). -/
def snapOf (p : Canvas × ℕ) : CanvasState :=
  { data := (serializeCanvas p.1).getD default, timestamp := p.2 }

/-- Last `n` elements of a list. -/
def lastN (n : ℕ) (xs : List CanvasState) : List CanvasState :=
  xs.drop (xs.length - n)

theorem lastN_of_le (n : ℕ) (xs : List CanvasState) (h : xs.length ≤ n) :
    lastN n xs = xs := by
  unfold lastN
  rw [Nat.sub_eq_zero_of_le h, List.drop_zero]

theorem lastN_length (n : ℕ) (xs : List CanvasState) :
    (lastN n xs).length = min n xs.length := by
  unfold lastN
  rw [List.length_drop]
  omega

theorem lastN_drop_front (n k : ℕ) (xs ys : List CanvasState)
    (h : n + k ≤ xs.length) :
    lastN n (xs.drop k ++ ys) = lastN n (xs ++ ys) := by
  unfold lastN
  rw [← List.drop_append_of_le_length (show k ≤ xs.length by omega),
    List.drop_drop]
  congr 1
  simp only [List.length_drop, List.length_append]
  omega

namespace CanvasHistoryManager

/-- Exact form of a successful, unguarded `saveState` from an at-the-end
manager: append, then evict index 0 when the cap is exceeded. -/
theorem saveState_atEnd_eq (m : CanvasHistoryManager) (c : Canvas) (ts : ℕ)
    (d : SnapshotData)
    (hu : m.isUndoing = false) (hr : m.isRedoing = false) (hl : m.isLoading = false)
    (hs : serializeCanvas c = some d)
    (hidx : m.currentIndex = (m.history.length : Int) - 1) :
    saveState m c ts = { m with
      history := if m.history.length + 1 > m.maxHistorySize
        then (m.history ++ [(⟨d, ts⟩ : CanvasState)]).drop 1
        else m.history ++ [(⟨d, ts⟩ : CanvasState)],
      currentIndex := ((if m.history.length + 1 > m.maxHistorySize
        then (m.history ++ [(⟨d, ts⟩ : CanvasState)]).drop 1
        else m.history ++ [(⟨d, ts⟩ : CanvasState)]).length : Int) - 1 } := by
  unfold saveState
  rw [if_neg (by simp [hu, hr, hl]), hs]
  dsimp only
  have hnt : ¬(m.currentIndex < (m.history.length : Int) - 1) := by omega
  rw [if_neg hnt]
  by_cases hev : (m.history ++ [(⟨d, ts⟩ : CanvasState)]).length > m.maxHistorySize
  · rw [if_pos hev, if_pos (by simpa using hev)]
    simp only [CanvasHistoryManager.mk.injEq, and_true, true_and]
    simp only [List.length_drop, List.length_append, List.length_singleton]
    simp only [List.length_append, List.length_singleton] at hev
    omega
  · rw [if_neg hev, if_neg (by simpa using hev)]
    simp only [CanvasHistoryManager.mk.injEq, and_true, true_and]
    simp only [List.length_append, List.length_singleton]
    omega

/-- Characterization of `saveMany`: starting from an at-the-end manager with
cap 50 and at most 50 snapshots, folding captures through `saveState` keeps
exactly the last 50 of the accumulated snapshot sequence, with the index at
the end. -/
theorem saveMany_form (steps : List (Canvas × ℕ)) :
    ∀ m : CanvasHistoryManager,
      m.isUndoing = false → m.isRedoing = false → m.isLoading = false →
      m.maxHistorySize = 50 →
      m.currentIndex = (m.history.length : Int) - 1 →
      m.history.length ≤ 50 →
      (∀ p ∈ steps, (serializeCanvas p.1).isSome = true) →
      saveMany m steps = { m with
        history := lastN 50 (m.history ++ steps.map snapOf),
        currentIndex := ((lastN 50 (m.history ++ steps.map snapOf)).length : Int) - 1 } := by
  induction steps with
  | nil =>
    intro m hu hr hl hcap hidx hlen _
    obtain ⟨hist, idx, cap, fr, fu, fl⟩ := m
    dsimp only at *
    subst hu hr hl hcap hidx
    simp only [saveMany, List.foldl_nil, List.map_nil, List.append_nil]
    rw [lastN_of_le 50 hist hlen]
  | cons p rest ih =>
    intro m hu hr hl hcap hidx hlen hser
    obtain ⟨d, hd⟩ := Option.isSome_iff_exists.mp (hser p (List.mem_cons_self p rest))
    have hstep := saveState_atEnd_eq m p.1 p.2 d hu hr hl hd hidx
    have hsnap : ({ data := d, timestamp := p.2 } : CanvasState) = snapOf p := by
      unfold snapOf
      rw [hd]
      rfl
    rw [saveMany, List.foldl_cons]
    have hrest : ∀ q ∈ rest, (serializeCanvas q.1).isSome = true := fun q hq =>
      hser q (List.mem_cons_of_mem p hq)
    rw [show (List.foldl (fun acc q => saveState acc q.1 q.2) (saveState m p.1 p.2) rest)
        = saveMany (saveState m p.1 p.2) rest from rfl]
    rw [hstep] at *
    rw [ih _ (by dsimp only; exact hu) (by dsimp only; exact hr)
      (by dsimp only; exact hl) (by dsimp only; exact hcap) (by rfl)
      (by
        dsimp only
        split
        · next hev =>
          simp only [List.length_drop, List.length_append, List.length_singleton]
          omega
        · next hev =>
          simp only [List.length_append, List.length_singleton] at hev ⊢
          omega)
      hrest]
    dsimp only
    rw [hsnap, hcap]
    simp only [CanvasHistoryManager.mk.injEq, and_true, true_and]
    have hkey : lastN 50 ((if m.history.length + 1 > 50
          then (m.history ++ [snapOf p]).drop 1 else m.history ++ [snapOf p]) ++ rest.map snapOf)
        = lastN 50 ((m.history ++ [snapOf p]) ++ rest.map snapOf) := by
      split
      · next hev =>
        apply lastN_drop_front
        simp only [List.length_append, List.length_singleton]
        omega
      · rfl
    rw [hkey, List.append_assoc, List.singleton_append, List.map_cons]
    exact ⟨rfl, rfl⟩

end CanvasHistoryManager

/-- Stripping user objects is unaffected by re-adding an all-user list. -/
theorem filter_nonuser_strip (xs ys : List CanvasObject)
    (hys : ∀ o ∈ ys, isUserObject o = true) :
    ((xs.filter (fun o => !(isUserObject o)) ++ ys).filter (fun o => !(isUserObject o)))
      = xs.filter (fun o => !(isUserObject o)) := by
  rw [List.filter_append]
  have h1 : (xs.filter (fun o => !(isUserObject o))).filter (fun o => !(isUserObject o))
      = xs.filter (fun o => !(isUserObject o)) := by
    rw [List.filter_filter]
    congr 1
    funext o
    rw [Bool.and_self]
  have h2 : ys.filter (fun o => !(isUserObject o)) = [] := by
    apply List.filter_eq_nil_iff.mpr
    intro o ho
    simp [hys o ho]
  rw [h1, h2, List.append_nil]

/-- An in-range `getD` read is a member of the list. -/
theorem getD_mem_of_lt (xs : List CanvasState) (n : ℕ) (h : n < xs.length) :
    xs.getD n default ∈ xs := by
  rw [List.getD_eq_getElem?_getD, List.getElem?_eq_getElem h]
  exact List.getElem_mem h

namespace CanvasHistoryManager

/-- Characterization of `k` repeated `undo` calls from a settled manager whose
snapshots contain only user objects: the index drops by `k`, the history is
untouched, and (for `k > 0`) the surface holds the decorations plus the
objects of the snapshot `k` positions back. -/
theorem undoN_form (k : ℕ) :
    ∀ (m : CanvasHistoryManager) (c : Canvas),
      m.isUndoing = false → m.isRedoing = false → m.isLoading = false →
      (∀ s ∈ m.history, ∀ o ∈ s.data.objects, isUserObject o = true) →
      (k : Int) ≤ m.currentIndex →
      m.currentIndex ≤ (m.history.length : Int) - 1 →
      (undoN k m c).1 = { m with
        isUndoing := false, isRedoing := false, isLoading := false,
        currentIndex := m.currentIndex - (k : ℕ) } ∧
      (0 < k → (undoN k m c).2.objects
        = c.objects.filter (fun o => !(isUserObject o))
          ++ (m.history.getD (m.currentIndex - (k : ℕ)).toNat default).data.objects) := by
  induction k with
  | zero =>
    intro m c hu hr hl _ _ _
    obtain ⟨hist, idx, cap, fr, fu, fl⟩ := m
    dsimp only at hu hr hl
    subst hu hr hl
    refine ⟨?_, fun h0 => absurd h0 (by omega)⟩
    show (⟨hist, idx, cap, false, false, false⟩ : CanvasHistoryManager)
      = ⟨hist, idx - ((0 : ℕ) : Int), cap, false, false, false⟩
    simp
  | succ k ih =>
    intro m c hu hr hl hsnap hk hub
    have hk1 : (k : Int) ≤ m.currentIndex := by push_cast at hk ⊢; omega
    obtain ⟨hp1, hp2⟩ := ih m c hu hr hl hsnap hk1 hub
    have hph : (undoN k m c).1.history = m.history := by rw [hp1]
    have hpc : (undoN k m c).1.currentIndex = m.currentIndex - (k : ℕ) := by rw [hp1]
    have hcanU : canUndo (undoN k m c).1 = true := by
      simp only [canUndo, decide_eq_true_eq, hpc]
      push_cast at hk ⊢
      omega
    have hshape1 : (undoN (k + 1) m c).1 = (undo (undoN k m c).1 (undoN k m c).2).1 := rfl
    have hshape2 : (undoN (k + 1) m c).2 = (undo (undoN k m c).1 (undoN k m c).2).2.1 := rfl
    constructor
    · rw [hshape1, undo_fst _ _ hcanU, hp1]
      simp only [CanvasHistoryManager.mk.injEq, and_true, true_and]
      push_cast
      ring
    · intro _
      rw [hshape2, undo_snd_objects _ _ hcanU, hph, hpc]
      have hidxeq : (m.currentIndex - (k : ℕ) - 1)
          = m.currentIndex - ((k + 1 : ℕ) : Int) := by
        push_cast
        ring
      rw [hidxeq]
      congr 1
      by_cases hk0 : 0 < k
      · rw [hp2 hk0]
        apply filter_nonuser_strip
        apply hsnap
        apply getD_mem_of_lt
        omega
      · have hk00 : k = 0 := by omega
        subst hk00
        rfl

end CanvasHistoryManager

open CanvasHistoryManager in
/-- C3: 60 sequential unguarded captures on a fresh manager (cap 50) leave
exactly 50 snapshots with `currentIndex = 49`: each capture beyond the cap
evicted index 0 and decremented the index, so the 10 oldest snapshots are
unreachable.  Repeating `undo()` 49 times exhausts `canUndo()` and lands on
`history[0]`, which is the snapshot of the 11th capture (index 10), not the
1st: the restored surface carries the 11th capture's user objects. -/
theorem cap_eviction (steps : List (Canvas × ℕ)) (c : Canvas)
    (hlen : steps.length = 60)
    (hser : ∀ p ∈ steps, (serializeCanvas p.1).isSome = true)
    (c10 : Canvas) (t10 : ℕ) (d10 : SnapshotData)
    (hget : steps[10]? = some (c10, t10))
    (hd10 : serializeCanvas c10 = some d10)
    (m60 : CanvasHistoryManager) (hm : m60 = saveMany { } steps) :
    m60.history.length = 50 ∧
    m60.currentIndex = 49 ∧
    m60.history.getD 0 default = { data := d10, timestamp := t10 } ∧
    canUndo (undoN 49 m60 c).1 = false ∧
    (undoN 49 m60 c).1.currentIndex = 0 ∧
    (undoN 49 m60 c).2.objects.filter isUserObject
      = c10.objects.filter isUserObject := by
  have hform := saveMany_form steps { } rfl rfl rfl rfl (by decide) (by decide) hser
  rw [hform] at hm
  have hmaplen : (steps.map snapOf).length = 60 := by
    rw [List.length_map, hlen]
  have h1 : m60.history = lastN 50 (steps.map snapOf) := by
    rw [hm]
    dsimp only
    rw [List.nil_append]
  have h2 : m60.history.length = 50 := by
    rw [h1, lastN_length, hmaplen]
    decide
  have h3 : m60.currentIndex = 49 := by
    rw [hm]
    dsimp only
    rw [show (([] : List CanvasState) ++ steps.map snapOf) = steps.map snapOf from
      List.nil_append _]
    rw [lastN_length, hmaplen]
    decide
  have hu : m60.isUndoing = false := by rw [hm]
  have hr : m60.isRedoing = false := by rw [hm]
  have hl : m60.isLoading = false := by rw [hm]
  have hhead : m60.history.getD 0 default = { data := d10, timestamp := t10 } := by
    rw [h1]
    unfold lastN
    rw [hmaplen]
    rw [List.getD_eq_getElem?_getD, List.getElem?_drop, List.getElem?_map, hget,
      Option.map_some', Option.getD_some]
    unfold snapOf
    dsimp only
    rw [hd10, Option.getD_some]
  have hsnap : ∀ s ∈ m60.history, ∀ o ∈ s.data.objects, isUserObject o = true := by
    intro s hs
    rw [h1] at hs
    unfold lastN at hs
    have hs2 := List.mem_of_mem_drop hs
    obtain ⟨p, hp, hps⟩ := List.mem_map.mp hs2
    obtain ⟨dp, hdp⟩ := Option.isSome_iff_exists.mp (hser p hp)
    intro o ho
    rw [← hps] at ho
    unfold snapOf at ho
    rw [hdp] at ho
    exact serializeCanvas_all_user p.1 dp hdp o ho
  obtain ⟨hU1, hU2⟩ := undoN_form 49 m60 c hu hr hl hsnap (by omega) (by omega)
  have hcix : m60.currentIndex - ((49 : ℕ) : Int) = 0 := by
    rw [h3]
    decide
  refine ⟨h2, h3, hhead, ?_, ?_, ?_⟩
  · rw [hU1]
    simp only [canUndo]
    dsimp only
    rw [hcix]
    decide
  · rw [hU1]
    dsimp only
    rw [hcix]
  · rw [hU2 (by omega)]
    rw [hcix]
    rw [show ((0 : Int)).toNat = 0 from rfl, hhead]
    rw [filter_user_strip_append c.objects d10.objects
      (serializeCanvas_all_user c10 d10 hd10)]
    exact serializeCanvas_objects c10 d10 hd10

/-- Closed instance of C3: 60 captures of a one-rectangle canvas. -/
theorem cap_eviction_witness :
    (CanvasHistoryManager.saveMany { }
        ((List.range 60).map (fun i =>
          ((⟨[⟨"r", 0, 0, none, false, false⟩], none, none⟩ : Canvas), i)))).history.length
      = 50 ∧
    (CanvasHistoryManager.saveMany { }
        ((List.range 60).map (fun i =>
          ((⟨[⟨"r", 0, 0, none, false, false⟩], none, none⟩ : Canvas), i)))).currentIndex
      = 49 ∧
    (CanvasHistoryManager.saveMany { }
        ((List.range 60).map (fun i =>
          ((⟨[⟨"r", 0, 0, none, false, false⟩], none, none⟩ : Canvas), i)))).history.getD 0 default
      = { data := ⟨[⟨"r", 0, 0, none, false, false⟩], none, none⟩, timestamp := 10 } ∧
    CanvasHistoryManager.canUndo
      (CanvasHistoryManager.undoN 49
        (CanvasHistoryManager.saveMany { }
          ((List.range 60).map (fun i =>
            ((⟨[⟨"r", 0, 0, none, false, false⟩], none, none⟩ : Canvas), i))))
        ⟨[⟨"r", 0, 0, none, false, false⟩], none, none⟩).1 = false ∧
    (CanvasHistoryManager.undoN 49
        (CanvasHistoryManager.saveMany { }
          ((List.range 60).map (fun i =>
            ((⟨[⟨"r", 0, 0, none, false, false⟩], none, none⟩ : Canvas), i))))
        ⟨[⟨"r", 0, 0, none, false, false⟩], none, none⟩).1.currentIndex = 0 ∧
    (CanvasHistoryManager.undoN 49
        (CanvasHistoryManager.saveMany { }
          ((List.range 60).map (fun i =>
            ((⟨[⟨"r", 0, 0, none, false, false⟩], none, none⟩ : Canvas), i))))
        ⟨[⟨"r", 0, 0, none, false, false⟩], none, none⟩).2.objects.filter isUserObject
      = List.filter isUserObject [⟨"r", 0, 0, none, false, false⟩] :=
  cap_eviction
    ((List.range 60).map (fun i =>
      ((⟨[⟨"r", 0, 0, none, false, false⟩], none, none⟩ : Canvas), i)))
    ⟨[⟨"r", 0, 0, none, false, false⟩], none, none⟩
    (by decide) (by decide)
    ⟨[⟨"r", 0, 0, none, false, false⟩], none, none⟩ 10
    ⟨[⟨"r", 0, 0, none, false, false⟩], none, none⟩
    (by decide) (by decide) _ rfl

/-! ## Helper lemmas about the shape sizer -/

theorem jsMax_ge_right (o : Option ℚ) (b : ℚ) : b ≤ jsMax o b := by
  cases o with
  | none => exact le_refl b
  | some x => exact le_max_right x b

theorem le_ceil_cast (a : ℚ) : a ≤ ((⌈a⌉ : ℤ) : ℚ) := Int.le_ceil a

/-- Width floor of `calculateShapeSize` for every input. -/
theorem calculateShapeSize_width_ge (text : String) (ty : ShapeType) (fs : ℚ)
    (ff fw : String) (mw mh : ℚ) :
    mw ≤ (calculateShapeSize text ty fs ff fw mw mh).width := by
  unfold calculateShapeSize
  by_cases hb : isBlank text
  · rw [if_pos hb]
  · rw [if_neg hb]
    cases ty <;> dsimp only
    · exact le_trans (jsMax_ge_right _ _) (le_ceil_cast _)
    · exact le_trans (le_trans (le_max_right _ _) (jsMax_ge_right _ _)) (le_ceil_cast _)
    · exact le_trans (jsMax_ge_right _ _) (le_ceil_cast _)
    · exact le_trans (jsMax_ge_right _ _) (le_ceil_cast _)
    · exact le_trans (jsMax_ge_right _ _) (le_ceil_cast _)

/-- Height floor of `calculateShapeSize` for every non-circle shape. -/
theorem calculateShapeSize_height_ge (text : String) (ty : ShapeType) (fs : ℚ)
    (ff fw : String) (mw mh : ℚ) (hty : ty ≠ ShapeType.circle) :
    mh ≤ (calculateShapeSize text ty fs ff fw mw mh).height := by
  unfold calculateShapeSize
  by_cases hb : isBlank text
  · rw [if_pos hb]
  · rw [if_neg hb]
    cases ty <;> dsimp only
    · exact le_trans (le_max_right _ _) (le_ceil_cast _)
    · exact absurd rfl hty
    · exact le_trans (le_max_right _ _) (le_ceil_cast _)
    · exact le_trans (le_max_right _ _) (le_ceil_cast _)
    · exact le_trans (le_max_right _ _) (le_ceil_cast _)


/-- For a circle with a non-blank label, both axes get the same ceiling of
`circleSize`; `minHeight` is not consulted. -/
theorem calculateShapeSize_circle_square (text : String) (fs : ℚ)
    (ff fw : String) (mw mh : ℚ) (hb : isBlank text = false) :
    (calculateShapeSize text ShapeType.circle fs ff fw mw mh).height
      = (calculateShapeSize text ShapeType.circle fs ff fw mw mh).width := by
  unfold calculateShapeSize
  rw [if_neg (by simp [hb])]

/-- Blank text short-circuits to the raw minima. -/
theorem calculateShapeSize_blank (text : String) (ty : ShapeType) (fs : ℚ)
    (ff fw : String) (mw mh : ℚ) (hb : isBlank text = true) :
    calculateShapeSize text ty fs ff fw mw mh
      = { width := mw, height := mh, padding := 16 } := by
  unfold calculateShapeSize
  rw [if_pos hb]

/-- For non-blank text both dimensions are integers (ceilings). -/
theorem calculateShapeSize_int_of_nonblank (text : String) (ty : ShapeType) (fs : ℚ)
    (ff fw : String) (mw mh : ℚ) (hb : isBlank text = false) :
    (∃ a : ℤ, (calculateShapeSize text ty fs ff fw mw mh).width = (a : ℚ)) ∧
    (∃ b : ℤ, (calculateShapeSize text ty fs ff fw mw mh).height = (b : ℚ)) := by
  unfold calculateShapeSize
  rw [if_neg (by simp [hb])]
  dsimp only
  exact ⟨⟨_, rfl⟩, ⟨_, rfl⟩⟩

/-- Evaluation rule for a concrete ceiling. -/
theorem ceil_eval (q : ℚ) (z : ℤ) (h1 : (z : ℚ) - 1 < q) (h2 : q ≤ (z : ℚ)) :
    (⌈q⌉ : ℤ) = z := by
  rw [Int.ceil_eq_iff]
  exact ⟨h1, h2⟩

/-- Concrete measurement of the label "a" at the circle wrap width. -/
theorem measureText_a_circle :
    measureText "a" 14 "Inter, sans-serif" "500" (some (max 120 (80 * 0.7)))
      = ⟨some 9, 17, ["a"]⟩ := by
  unfold measureText estimateTextDimensions
  dsimp only
  rw [if_pos (show (max (120:ℚ) (80 * 0.7)) ≠ 0 by norm_num)]
  rw [show splitSpace "a" = ["a"] from by decide]
  rw [List.foldl_cons, List.foldl_nil]
  unfold wrapStep
  dsimp only
  rw [if_pos (rfl : ("" : String) = "")]
  rw [if_neg (by simp)]
  unfold finishLines
  rw [if_neg (by simp)]
  simp only [TextMetrics.mk.injEq, List.nil_append]
  refine ⟨?_, ?_, trivial⟩
  · simp only [show (["a"].map String.length) = [1] from by decide,
      show ([1].max?) = some 1 from by decide]
    simp
    exact ceil_eval _ 9 (by norm_num) (by norm_num)
  · rw [show ((["a"] : List String).length) = 1 from by decide]
    rw [show ((1 : ℕ) : ℚ) = 1 from by norm_num, one_mul]
    exact ceil_eval _ 17 (by norm_num) (by norm_num)

/-- Concrete circle sizing of the label "a" with `minWidth = 80`,
`minHeight = 500`: the requested `minHeight` is ignored. -/
theorem calculateShapeSize_a_circle :
    calculateShapeSize "a" ShapeType.circle 14 "Inter, sans-serif" "500" 80 500
      = ⟨80, 80, 20⟩ := by
  unfold calculateShapeSize
  rw [if_neg (by decide)]
  dsimp only [basePadding]
  rw [measureText_a_circle]
  unfold jsMax
  simp only [Option.map_some', Option.bind_eq_bind, Option.some_bind, Option.pure_def]
  simp only [ShapeSize.mk.injEq]
  refine ⟨?_, ?_, trivial⟩ <;>
    (rw [show (((9:ℤ):ℚ) + 20 * 2) ⊔ ((((17:ℤ):ℚ) + 20 * 2) ⊔ 80) = 80 from by
        push_cast
        norm_num]
     rw [show (⌈(80:ℚ)⌉ : ℤ) = 80 from ceil_eval _ 80 (by norm_num) (by norm_num)]
     norm_num)

/-- Counterexample to C6 as stated: with the (type-valid) fractional
`minWidth = 161/2` and empty text, the returned width `161/2` is not an
integer (not ceiling-rounded); and for a circle the returned height ignores
`minHeight` (here 80 < 500). -/
theorem shape_size_not_integral_cex :
    (calculateShapeSize "" ShapeType.rectangle 14 "Inter, sans-serif" "500" (161/2) 40).width
      ≠ ((⌈(calculateShapeSize "" ShapeType.rectangle 14 "Inter, sans-serif" "500"
          (161/2) 40).width⌉ : ℤ) : ℚ) ∧
    (calculateShapeSize "a" ShapeType.circle 14 "Inter, sans-serif" "500" 80 500).height
      < 500 := by
  constructor
  · rw [calculateShapeSize_blank "" ShapeType.rectangle 14 "Inter, sans-serif" "500"
      (161/2) 40 (by decide)]
    dsimp only
    rw [show (⌈(161/2 : ℚ)⌉ : ℤ) = 81 from ceil_eval _ 81 (by norm_num) (by norm_num)]
    norm_num
  · rw [calculateShapeSize_a_circle]
    norm_num

open ShapeType in
/-- C6 (amended): `calculateShapeSize` always floors the width against
`minWidth`; it floors the height against `minHeight` for every non-circle
shape and for blank text, while for a circle with a non-blank label both axes
equal the circle diameter (which is floored against `minWidth` only); and the
dimensions are integers whenever the supplied minima are integers (for
non-blank text they are ceilings outright). -/
theorem shape_size_floor (text : String) (ty : ShapeType) (fs : ℚ) (ff fw : String)
    (mw mh : ℚ) :
    mw ≤ (calculateShapeSize text ty fs ff fw mw mh).width ∧
    ((ty ≠ ShapeType.circle ∨ isBlank text = true) →
      mh ≤ (calculateShapeSize text ty fs ff fw mw mh).height) ∧
    (ty = ShapeType.circle → isBlank text = false →
      (calculateShapeSize text ty fs ff fw mw mh).height
        = (calculateShapeSize text ty fs ff fw mw mh).width) ∧
    ((∃ a : ℤ, mw = (a : ℚ)) →
      ∃ a : ℤ, (calculateShapeSize text ty fs ff fw mw mh).width = (a : ℚ)) ∧
    ((∃ b : ℤ, mh = (b : ℚ)) →
      ∃ b : ℤ, (calculateShapeSize text ty fs ff fw mw mh).height = (b : ℚ)) := by
  refine ⟨calculateShapeSize_width_ge text ty fs ff fw mw mh, ?_, ?_, ?_, ?_⟩
  · intro h
    cases h with
    | inl h => exact calculateShapeSize_height_ge text ty fs ff fw mw mh h
    | inr h =>
      rw [calculateShapeSize_blank text ty fs ff fw mw mh h]
  · intro h1 h2
    subst h1
    exact calculateShapeSize_circle_square text fs ff fw mw mh h2
  · intro ha
    by_cases hb : isBlank text
    · rw [calculateShapeSize_blank text ty fs ff fw mw mh hb]
      exact ha
    · exact (calculateShapeSize_int_of_nonblank text ty fs ff fw mw mh
        (Bool.not_eq_true _ ▸ eq_false_of_ne_true hb)).1
  · intro hb2
    by_cases hb : isBlank text
    · rw [calculateShapeSize_blank text ty fs ff fw mw mh hb]
      exact hb2
    · exact (calculateShapeSize_int_of_nonblank text ty fs ff fw mw mh
        (Bool.not_eq_true _ ▸ eq_false_of_ne_true hb)).2

/-- Closed instance of the amended C6 at `("Process Order", rectangle, 80, 40)`,
discharging the non-circle disjunct and the integer-minima antecedents. -/
theorem shape_size_floor_witness :
    (80 : ℚ) ≤ (calculateShapeSize "Process Order" ShapeType.rectangle 14
      "Inter, sans-serif" "500" 80 40).width ∧
    (40 : ℚ) ≤ (calculateShapeSize "Process Order" ShapeType.rectangle 14
      "Inter, sans-serif" "500" 80 40).height ∧
    (∃ a : ℤ, (calculateShapeSize "Process Order" ShapeType.rectangle 14
      "Inter, sans-serif" "500" 80 40).width = (a : ℚ)) ∧
    (∃ b : ℤ, (calculateShapeSize "Process Order" ShapeType.rectangle 14
      "Inter, sans-serif" "500" 80 40).height = (b : ℚ)) :=
  ⟨(shape_size_floor "Process Order" ShapeType.rectangle 14 "Inter, sans-serif" "500" 80 40).1,
   (shape_size_floor "Process Order" ShapeType.rectangle 14 "Inter, sans-serif" "500" 80 40).2.1
     (Or.inl (by decide)),
   (shape_size_floor "Process Order" ShapeType.rectangle 14 "Inter, sans-serif" "500" 80 40).2.2.2.1
     ⟨80, by norm_num⟩,
   (shape_size_floor "Process Order" ShapeType.rectangle 14 "Inter, sans-serif" "500" 80 40).2.2.2.2
     ⟨40, by norm_num⟩⟩

/-- Counterexample to C10 as stated: `maxWidth = 0` is supplied, but the
JavaScript truthiness guard `if (maxWidth)` treats it as absent, so the empty
text yields the single empty line with height 17, not empty lines with
height 0. -/
theorem empty_wrap_cex :
    (measureText "" 14 "Inter, sans-serif" "500" (some 0)).lines ≠ [] ∧
    (measureText "" 14 "Inter, sans-serif" "500" (some 0)).height ≠ 0 := by
  unfold measureText estimateTextDimensions
  dsimp only
  rw [if_neg (show ¬((0:ℚ) ≠ 0) by norm_num)]
  refine ⟨by simp, ?_⟩
  rw [show ((["" ] : List String).length) = 1 from by decide]
  rw [show ((1 : ℕ) : ℚ) = 1 from by norm_num, one_mul]
  rw [show (⌈(14 * (1.2:ℚ))⌉ : ℤ) = 17 from ceil_eval _ 17 (by norm_num) (by norm_num)]
  norm_num

/-- C10 (amended): for every font size and *nonzero* supplied `maxWidth`,
measuring the empty text returns no lines and height 0 (no one-line minimum);
without `maxWidth` (or with the falsy `maxWidth = 0`) it returns the single
empty line with height `ceil(fontSize * 1.2)`. -/
theorem empty_text_wrap (fs : ℚ) (ff fw : String) (mw : ℚ) (hmw : mw ≠ 0) :
    (measureText "" fs ff fw (some mw)).lines = [] ∧
    (measureText "" fs ff fw (some mw)).height = 0 ∧
    (measureText "" fs ff fw none).lines = [""] ∧
    (measureText "" fs ff fw none).height = ⌈fs * 1.2⌉ := by
  unfold measureText estimateTextDimensions
  dsimp only
  rw [if_pos hmw]
  rw [show splitSpace "" = [""] from by decide]
  rw [List.foldl_cons, List.foldl_nil]
  unfold wrapStep
  dsimp only
  rw [if_pos (rfl : ("" : String) = "")]
  rw [if_neg (by simp)]
  unfold finishLines
  rw [if_pos rfl]
  refine ⟨rfl, ?_, rfl, ?_⟩
  · rw [show (([] : List String).length) = 0 from rfl]
    rw [show ((0 : ℕ) : ℚ) = 0 from by norm_num, zero_mul]
    exact_mod_cast Int.ceil_zero
  · rw [show ((["" ] : List String).length) = 1 from by decide]
    rw [show ((1 : ℕ) : ℚ) = 1 from by norm_num, one_mul]

/-- Closed instance of the amended C10 at `fontSize = 14`, `maxWidth = 50`. -/
theorem empty_text_wrap_witness :
    ((50 : ℚ) ≠ 0) ∧
    (measureText "" 14 "Inter, sans-serif" "500" (some 50)).lines = [] ∧
    (measureText "" 14 "Inter, sans-serif" "500" (some 50)).height = 0 :=
  ⟨by norm_num,
   (empty_text_wrap 14 "Inter, sans-serif" "500" 50 (by norm_num)).1,
   (empty_text_wrap 14 "Inter, sans-serif" "500" 50 (by norm_num)).2.1⟩

/-- Nonnegative `minWidth` gives a nonnegative width. -/
theorem calculateShapeSize_width_nonneg (text : String) (ty : ShapeType) (fs : ℚ)
    (ff fw : String) (mw mh : ℚ) (hmw : 0 ≤ mw) :
    0 ≤ (calculateShapeSize text ty fs ff fw mw mh).width :=
  le_trans hmw (calculateShapeSize_width_ge text ty fs ff fw mw mh)

/-- Nonnegative minima give a nonnegative height (the circle takes its width,
which is floored against `minWidth`). -/
theorem calculateShapeSize_height_nonneg (text : String) (ty : ShapeType) (fs : ℚ)
    (ff fw : String) (mw mh : ℚ) (hmw : 0 ≤ mw) (hmh : 0 ≤ mh) :
    0 ≤ (calculateShapeSize text ty fs ff fw mw mh).height := by
  by_cases hty : ty = ShapeType.circle
  · subst hty
    by_cases hb : isBlank text
    · rw [calculateShapeSize_blank text ShapeType.circle fs ff fw mw mh hb]
      exact hmh
    · rw [calculateShapeSize_circle_square text fs ff fw mw mh
        (eq_false_of_ne_true hb)]
      exact calculateShapeSize_width_nonneg text ShapeType.circle fs ff fw mw mh hmw
  · exact le_trans hmh (calculateShapeSize_height_ge text ty fs ff fw mw mh hty)

/-- In-range `getD` through a `map`. -/
theorem getD_map_lt {α β : Type} [Inhabited α] [Inhabited β] (f : α → β) (l : List α)
    (i : ℕ) (h : i < l.length) :
    (l.map f).getD i default = f (l.getD i default) := by
  rw [List.getD_eq_getElem?_getD, List.getD_eq_getElem?_getD, List.getElem?_map,
    List.getElem?_eq_getElem h]
  rfl

/-- An in-range `getD` read is a member of the list. -/
theorem getD_mem_lt {α : Type} [Inhabited α] (l : List α) (i : ℕ) (h : i < l.length) :
    l.getD i default ∈ l := by
  rw [List.getD_eq_getElem?_getD, List.getElem?_eq_getElem h]
  exact List.getElem_mem h

/-- Specification of `List.max?` over the rationals. -/
theorem max?_spec (l : List ℚ) (W : ℚ) (h : l.max? = some W) : W ∈ l ∧ ∀ b ∈ l, b ≤ W :=
  have : Std.Antisymm (fun x1 x2 : ℚ => x1 ≤ x2) := ⟨fun h1 h2 => le_antisymm h1 h2⟩
  (List.max?_eq_some_iff (fun _ => le_refl _) max_choice (fun _ _ _ => max_le_iff)).mp h

/-- Counterexample to C9 as stated: a single entry with (type-valid) negative
requested minima yields width `-7` = `max(-10, 0.7 * -10)`, and
`0.7 * max(result widths) = -4.9 > -7`: the claimed lower bound fails. -/
theorem normalize_bound_cex :
    ¬ (0.7 * ((normalizeShapeSizes
          [⟨"", ShapeType.rectangle, some (-10), some (-10)⟩]).getD 0 default).width
        ≤ ((normalizeShapeSizes
          [⟨"", ShapeType.rectangle, some (-10), some (-10)⟩]).getD 0 default).width) := by
  have hentry : entrySize ⟨"", ShapeType.rectangle, some (-10), some (-10)⟩
      = ⟨-10, -10, 16⟩ := by
    unfold entrySize
    dsimp only
    rw [show orDefault (some (-10)) 80 = -10 from by unfold orDefault; norm_num]
    rw [show orDefault (some (-10)) 40 = -10 from by unfold orDefault; norm_num]
    exact calculateShapeSize_blank "" ShapeType.rectangle 14 "Inter, sans-serif" "500"
      (-10) (-10) (by decide)
  unfold normalizeShapeSizes
  simp only [List.map_cons, List.map_nil, hentry]
  rw [show ([(⟨-10, -10, 16⟩ : ShapeSize).width].max?) = some (-10) from rfl]
  simp only [Option.map_some', jsMax, List.getD_cons_zero]
  rw [show ((-10 : ℚ) * 0.7) ⊔ (-10) = -7 from by norm_num]
  norm_num

/-- C9 (amended): `normalizeShapeSizes` returns one `ShapeSize` per input
entry, in order (entry `i`'s result keeps entry `i`'s padding and never
shrinks its independently computed dimensions), and — provided every entry's
effective minima (`minWidth || 80`, `minHeight || 40`) are nonnegative —
every result width is at least `0.7` times every result width (hence at least
`0.7 * max`) and every result height at least `0.8` times every result
height. -/
theorem normalize_lower_bound (shapes : List NormalizeEntry)
    (hw : ∀ e ∈ shapes, 0 ≤ orDefault e.minWidth 80)
    (hh : ∀ e ∈ shapes, 0 ≤ orDefault e.minHeight 40) :
    (normalizeShapeSizes shapes).length = shapes.length ∧
    (∀ i, i < shapes.length →
      ((normalizeShapeSizes shapes).getD i default).padding
          = (entrySize (shapes.getD i default)).padding ∧
      (entrySize (shapes.getD i default)).width
          ≤ ((normalizeShapeSizes shapes).getD i default).width ∧
      (entrySize (shapes.getD i default)).height
          ≤ ((normalizeShapeSizes shapes).getD i default).height) ∧
    (∀ i j, i < shapes.length → j < shapes.length →
      0.7 * ((normalizeShapeSizes shapes).getD j default).width
          ≤ ((normalizeShapeSizes shapes).getD i default).width ∧
      0.8 * ((normalizeShapeSizes shapes).getD j default).height
          ≤ ((normalizeShapeSizes shapes).getD i default).height) := by
  have hwnn : ∀ s ∈ shapes.map entrySize, 0 ≤ s.width := by
    intro s hs
    obtain ⟨e, he, hes⟩ := List.mem_map.mp hs
    rw [← hes]
    exact calculateShapeSize_width_nonneg e.text e.type 14 "Inter, sans-serif" "500"
      (orDefault e.minWidth 80) (orDefault e.minHeight 40) (hw e he)
  have hhnn : ∀ s ∈ shapes.map entrySize, 0 ≤ s.height := by
    intro s hs
    obtain ⟨e, he, hes⟩ := List.mem_map.mp hs
    rw [← hes]
    exact calculateShapeSize_height_nonneg e.text e.type 14 "Inter, sans-serif" "500"
      (orDefault e.minWidth 80) (orDefault e.minHeight 40) (hw e he) (hh e he)
  have hlen : (normalizeShapeSizes shapes).length = shapes.length := by
    unfold normalizeShapeSizes
    simp
  have hresD : ∀ i, i < shapes.length →
      (normalizeShapeSizes shapes).getD i default
        = (fun size =>
            ({ size with
              width := jsMax ((((shapes.map entrySize).map (fun s => s.width)).max?).map
                (fun w => w * 0.7)) size.width,
              height := jsMax ((((shapes.map entrySize).map (fun s => s.height)).max?).map
                (fun h => h * 0.8)) size.height } : ShapeSize))
          (entrySize (shapes.getD i default)) := by
    intro i hi
    show ((shapes.map entrySize).map _).getD i default = _
    rw [getD_map_lt _ (shapes.map entrySize) i (by simpa using hi),
      getD_map_lt entrySize shapes i hi]
  refine ⟨hlen, ?_, ?_⟩
  · intro i hi
    rw [hresD i hi]
    exact ⟨rfl, jsMax_ge_right _ _, jsMax_ge_right _ _⟩
  · intro i j hi hj
    have hne : shapes ≠ [] := by
      intro hnil
      rw [hnil] at hi
      exact absurd hi (by simp)
    obtain ⟨W, hW⟩ : ∃ W, ((shapes.map entrySize).map (fun s => s.width)).max? = some W := by
      cases hmw : ((shapes.map entrySize).map (fun s => s.width)).max? with
      | none =>
        rw [List.max?_eq_none_iff] at hmw
        simp only [List.map_eq_nil_iff] at hmw
        exact absurd hmw hne
      | some W => exact ⟨W, rfl⟩
    obtain ⟨H, hH⟩ : ∃ H, ((shapes.map entrySize).map (fun s => s.height)).max? = some H := by
      cases hmh : ((shapes.map entrySize).map (fun s => s.height)).max? with
      | none =>
        rw [List.max?_eq_none_iff] at hmh
        simp only [List.map_eq_nil_iff] at hmh
        exact absurd hmh hne
      | some H => exact ⟨H, rfl⟩
    obtain ⟨hWmem, hWub⟩ := max?_spec _ W hW
    obtain ⟨hHmem, hHub⟩ := max?_spec _ H hH
    have hW0 : 0 ≤ W := by
      obtain ⟨s, hs, hsw⟩ := List.mem_map.mp hWmem
      rw [← hsw]
      exact hwnn s hs
    have hH0 : 0 ≤ H := by
      obtain ⟨s, hs, hsh⟩ := List.mem_map.mp hHmem
      rw [← hsh]
      exact hhnn s hs
    have hub : ∀ k, k < shapes.length →
        ((normalizeShapeSizes shapes).getD k default).width ≤ W ∧
        ((normalizeShapeSizes shapes).getD k default).height ≤ H := by
      intro k hk
      rw [hresD k hk, hW, hH]
      dsimp only [jsMax, Option.map_some']
      constructor
      · apply max_le
        · exact mul_le_of_le_one_right hW0 (by norm_num)
        · apply hWub
          rw [← getD_map_lt entrySize shapes k hk]
          exact List.mem_map_of_mem (fun s => s.width)
            (getD_mem_lt (shapes.map entrySize) k (by simpa using hk))
      · apply max_le
        · exact mul_le_of_le_one_right hH0 (by norm_num)
        · apply hHub
          rw [← getD_map_lt entrySize shapes k hk]
          exact List.mem_map_of_mem (fun s => s.height)
            (getD_mem_lt (shapes.map entrySize) k (by simpa using hk))
    have hlb : ∀ k, k < shapes.length →
        W * 0.7 ≤ ((normalizeShapeSizes shapes).getD k default).width ∧
        H * 0.8 ≤ ((normalizeShapeSizes shapes).getD k default).height := by
      intro k hk
      rw [hresD k hk, hW, hH]
      dsimp only [jsMax, Option.map_some']
      exact ⟨le_max_left _ _, le_max_left _ _⟩
    constructor
    · calc 0.7 * ((normalizeShapeSizes shapes).getD j default).width
          ≤ 0.7 * W := by
            exact mul_le_mul_of_nonneg_left (hub j hj).1 (by norm_num)
      _ = W * 0.7 := mul_comm _ _
      _ ≤ ((normalizeShapeSizes shapes).getD i default).width := (hlb i hi).1
    · calc 0.8 * ((normalizeShapeSizes shapes).getD j default).height
          ≤ 0.8 * H := by
            exact mul_le_mul_of_nonneg_left (hub j hj).2 (by norm_num)
      _ = H * 0.8 := mul_comm _ _
      _ ≤ ((normalizeShapeSizes shapes).getD i default).height := (hlb i hi).2

/-- Closed instance of the amended C9 on a one-entry batch with default
minima. -/
theorem normalize_lower_bound_witness :
    (normalizeShapeSizes [⟨"a", ShapeType.rectangle, none, none⟩]).length = 1 ∧
    0.7 * ((normalizeShapeSizes [⟨"a", ShapeType.rectangle, none, none⟩]).getD 0 default).width
      ≤ ((normalizeShapeSizes [⟨"a", ShapeType.rectangle, none, none⟩]).getD 0 default).width ∧
    0.8 * ((normalizeShapeSizes [⟨"a", ShapeType.rectangle, none, none⟩]).getD 0 default).height
      ≤ ((normalizeShapeSizes [⟨"a", ShapeType.rectangle, none, none⟩]).getD 0 default).height :=
  ⟨(normalize_lower_bound [⟨"a", ShapeType.rectangle, none, none⟩]
      (by intro e he; simp only [List.mem_singleton] at he; rw [he]; norm_num [orDefault])
      (by intro e he; simp only [List.mem_singleton] at he; rw [he]; norm_num [orDefault])).1,
   ((normalize_lower_bound [⟨"a", ShapeType.rectangle, none, none⟩]
      (by intro e he; simp only [List.mem_singleton] at he; rw [he]; norm_num [orDefault])
      (by intro e he; simp only [List.mem_singleton] at he; rw [he]; norm_num [orDefault])).2.2
      0 0 (by decide) (by decide)).1,
   ((normalize_lower_bound [⟨"a", ShapeType.rectangle, none, none⟩]
      (by intro e he; simp only [List.mem_singleton] at he; rw [he]; norm_num [orDefault])
      (by intro e he; simp only [List.mem_singleton] at he; rw [he]; norm_num [orDefault])).2.2
      0 0 (by decide) (by decide)).2⟩

/-- Order on JavaScript widths: `none` is `-Infinity`, below everything. -/
def jsWidthLe (a b : Option Int) : Bool :=
  match a, b with
  | none, _ => true
  | some _, none => false
  | some x, some y => decide (x ≤ y)

/-- One line list dominates into another when each line maps to a line at
least as long. -/
def Dominates (xs ys : List String) : Prop :=
  ∀ l ∈ xs, ∃ l2 ∈ ys, l.length ≤ l2.length

theorem dominates_trans {xs ys zs : List String}
    (h1 : Dominates xs ys) (h2 : Dominates ys zs) : Dominates xs zs := by
  intro l hl
  obtain ⟨l2, hl2, hle⟩ := h1 l hl
  obtain ⟨l3, hl3, hle2⟩ := h2 l2 hl2
  exact ⟨l3, hl3, le_trans hle hle2⟩

/-- One step of the greedy wrap never loses line length: the completed lines
survive unchanged and the current line either survives, is pushed intact, or
is extended. -/
theorem dominates_wrapStep (acw mw : ℚ) (st : List String × String) (w : String) :
    Dominates (finishLines st) (finishLines (wrapStep acw mw st w)) := by
  unfold wrapStep
  dsimp only
  by_cases h2 : st.2 = ""
  · rw [if_pos h2]
    rw [if_neg (by simp [h2])]
    unfold finishLines
    rw [if_pos h2]
    dsimp only
    intro l hl
    split
    · exact ⟨l, hl, le_refl _⟩
    · exact ⟨l, List.mem_append_left _ hl, le_refl _⟩
  · rw [if_neg h2]
    split
    · unfold finishLines
      rw [if_neg h2]
      dsimp only
      intro l hl
      split
      · exact ⟨l, hl, le_refl _⟩
      · exact ⟨l, List.mem_append_left _ hl, le_refl _⟩
    · unfold finishLines
      rw [if_neg h2]
      dsimp only
      have htl : (st.2 ++ " " ++ w) ≠ "" := by
        intro he
        have hlen := congrArg String.length he
        rw [String.length_append, String.length_append] at hlen
        have h20 : st.2.length = 0 := by
          simp only [String.length_empty] at hlen
          omega
        have hd : st.2.data = [] := List.length_eq_zero.mp h20
        exact h2 (String.ext (by rw [hd]))
      rw [if_neg htl]
      intro l hl
      rcases List.mem_append.mp hl with h | h
      · exact ⟨l, List.mem_append_left _ h, le_refl _⟩
      · rw [List.mem_singleton] at h
        subst h
        refine ⟨st.2 ++ " " ++ w, List.mem_append_right _ (List.mem_singleton_self _), ?_⟩
        rw [String.length_append, String.length_append]
        omega

/-- Folding further words never loses line length. -/
theorem dominates_foldl (acw mw : ℚ) (ws : List String) :
    ∀ st, Dominates (finishLines st) (finishLines (ws.foldl (wrapStep acw mw) st)) := by
  induction ws with
  | nil => exact fun st l hl => ⟨l, hl, le_refl _⟩
  | cons w rest ih =>
    intro st
    rw [List.foldl_cons]
    exact dominates_trans (dominates_wrapStep acw mw st w) (ih (wrapStep acw mw st w))

/-- Specification of `List.max?` over the naturals. -/
theorem max?_specN (l : List ℕ) (M : ℕ) (h : l.max? = some M) : M ∈ l ∧ ∀ b ∈ l, b ≤ M :=
  have : Std.Antisymm (fun x1 x2 : ℕ => x1 ≤ x2) := ⟨fun h1 h2 => le_antisymm h1 h2⟩
  (List.max?_eq_some_iff (fun _ => le_refl _) max_choice (fun _ _ _ => max_le_iff)).mp h

/-- Domination transports the maximal line length upward. -/
theorem max?_mono_of_dominates (xs ys : List String) (hd : Dominates xs ys) (M : ℕ)
    (hM : (xs.map String.length).max? = some M) :
    ∃ N, (ys.map String.length).max? = some N ∧ M ≤ N := by
  obtain ⟨hMmem, _⟩ := max?_specN _ M hM
  obtain ⟨l, hl, hlen⟩ := List.mem_map.mp hMmem
  obtain ⟨l2, hl2, hle⟩ := hd l hl
  obtain ⟨N, hN⟩ : ∃ N, (ys.map String.length).max? = some N := by
    cases hys : (ys.map String.length).max? with
    | none =>
      rw [List.max?_eq_none_iff, List.map_eq_nil_iff] at hys
      rw [hys] at hl2
      cases hl2
    | some N => exact ⟨N, rfl⟩
  obtain ⟨_, hub⟩ := max?_specN _ N hN
  exact ⟨N, hN, le_trans (hlen ▸ hle) (hub _ (List.mem_map_of_mem _ hl2))⟩

/-- C8: for a fixed shape-label font (nonnegative size) and a fixed effective
wrap constraint (a truthy `maxWidth`), a strictly longer label — the shorter
label's words extended by further words — never yields a smaller computed
width from the measurement primitive. -/
theorem width_monotone (t1 t2 : String) (extra : List String) (fs : ℚ)
    (ff fw : String) (mw : ℚ) (hfs : 0 ≤ fs) (hmw : mw ≠ 0)
    (hsplit : splitSpace t2 = splitSpace t1 ++ extra) (_hextra : extra ≠ []) :
    jsWidthLe (measureText t1 fs ff fw (some mw)).width
      (measureText t2 fs ff fw (some mw)).width = true := by
  unfold measureText estimateTextDimensions
  dsimp only
  rw [if_pos hmw, if_pos hmw, hsplit, List.foldl_append]
  have hdom := dominates_foldl (fs * 0.6) mw extra
    ((splitSpace t1).foldl (wrapStep (fs * 0.6) mw) ([], ""))
  cases hM : (((finishLines ((splitSpace t1).foldl (wrapStep (fs * 0.6) mw)
      ([], ""))).map String.length).max?) with
  | none =>
    simp only [Option.bind_eq_bind, Option.none_bind, Option.map_none']
    rfl
  | some M =>
    obtain ⟨N, hN, hMN⟩ := max?_mono_of_dominates _ _ hdom M hM
    rw [hN]
    simp only [Option.bind_eq_bind, Option.some_bind, Option.pure_def, Option.map_some']
    simp only [jsWidthLe]
    rw [decide_eq_true_eq]
    apply Int.ceil_le_ceil
    apply mul_le_mul_of_nonneg_right
    · exact_mod_cast hMN
    · exact mul_nonneg hfs (by norm_num)

/-- Closed instance of C8: "a b" against "a b c" at font size 14 and wrap
width 100. -/
theorem width_monotone_witness :
    ((0 : ℚ) ≤ 14) ∧ ((100 : ℚ) ≠ 0) ∧
    splitSpace "a b c" = splitSpace "a b" ++ ["c"] ∧
    jsWidthLe (measureText "a b" 14 "Inter, sans-serif" "500" (some 100)).width
      (measureText "a b c" 14 "Inter, sans-serif" "500" (some 100)).width = true :=
  ⟨by norm_num, by norm_num, by decide,
   width_monotone "a b" "a b c" ["c"] 14 "Inter, sans-serif" "500" 100
     (by norm_num) (by norm_num) (by decide) (by decide)⟩
